import Mathlib

/-! Chessboard corner ordering and canvas-safe homography.

A shallow embedding of `lib/Calibrate/utils.cpp` (and of `corners_info_t` from
`main.cpp`).  Coordinates (`float` in the source) are exact rationals, `int`
counts and indices are unbounded integers, a floating value converted to `int`
is cut to 32 bits, and a failed `assert` or an out-of-range `operator[]` is an
explicit error value.
-/

namespace Calibrate

/-- Ways in which the embedded code can stop without a result. -/
inductive Err where
  /-- `assert(N < p.size() && "Invalid input")` -/
  | invalidInput
  /-- `assert(false && "Unexpected order of points")` -/
  | unexpectedOrder
  /-- `assert(!transposed && "Not supported yet")` -/
  | notSupported
  /-- an `operator[]`, `front()` or `back()` outside the container -/
  | outOfBounds
  /-- a `std::vector` constructed with a negative `int` as its size -/
  | badLength
  /-- the iteration budget given to a `for (...; ii != stop; ...)` loop ran out -/
  | outOfFuel
  deriving DecidableEq, Repr

deriving instance DecidableEq for Except

/-- The type `cv::Point2f`. -/
structure Point2f where
  x : ℚ
  y : ℚ
  deriving DecidableEq

instance : Inhabited Point2f := ⟨⟨0, 0⟩⟩

/-- The type `cv::Size` (`width`, `height` are `int`). -/
structure Size where
  width : Int
  height : Int
  deriving DecidableEq

/-- The enumeration `enum class Component : size_t { X = 0, Y = 1 }`. -/
inductive Component where
  | X
  | Y
  deriving DecidableEq

/-- The access `((cv::Vec<float, 2>)P)[static_cast<size_t>(c)]`. -/
def Point2f.comp (P : Point2f) : Component → ℚ
  | Component.X => P.x
  | Component.Y => P.y

/-- The result type `std::vector<std::vector<cv::Point2f>>`. -/
abbrev Grid := List (List Point2f)

/-- The helper `getPoint(points, stride, y, x) = points[y * stride + x]`.  The
arguments are `int`s converted to `size_t`; for `int` arguments the wrapped
index lies inside the vector exactly when `y * stride + x` does. -/
def getPoint (points : List Point2f) (stride y x : Int) : Except Err Point2f :=
  let k := y * stride + x
  if 0 ≤ k then
    match points[k.toNat]? with
    | some P => Except.ok P
    | none => Except.error Err.outOfBounds
  else Except.error Err.outOfBounds

/-- The type `struct loop_control { int start, step, stop; }`. -/
structure loop_control where
  start : Int
  step : Int
  stop : Int
  deriving DecidableEq

/-- The constructor `loop_control(int start, int stop)`. -/
def loop_control.ctor (start stop : Int) : loop_control :=
  { start := start, step := if start < stop then 1 else -1, stop := stop }

/-- One pass of the body of the loop of `areThereNMonotonousPoints`; the
state is `(numInc, numDec)`. -/
def monotonousStep (p : List Point2f) (c : Component) (cnt : Int × Int) (i : Nat) :
    Int × Int :=
  let cur := (p.getD i default).comp c
  let prev := (p.getD (i - 1) default).comp c
  if cur > prev then (cnt.1, cnt.2 + 1)
  else if cur < prev then (cnt.1 + 1, cnt.2)
  else cnt

/-- The function `areThereNMonotonousPoints(p, N, c)`.  The assertion compares
`N` as a `size_t`, so a negative `N` fails it. -/
def areThereNMonotonousPoints (p : List Point2f) (N : Int) (c : Component) :
    Except Err Bool :=
  if 0 ≤ N ∧ N < p.length then
    let cnt := (List.range' 1 (N.toNat - 1)).foldl (monotonousStep p c) (1, 1)
    Except.ok (decide (N = cnt.2) || decide (N = cnt.1))
  else Except.error Err.invalidInput

/-- The function `getPointsOrientation(p, bs, orderedByRows, transposed)`; the
result is the pair `(orderedByRows, transposed)`. -/
def getPointsOrientation (p : List Point2f) (bs : Size) : Except Err (Bool × Bool) :=
  match areThereNMonotonousPoints p bs.width Component.X with
  | Except.error e => Except.error e
  | Except.ok true => Except.ok (true, false)
  | Except.ok false =>
  match areThereNMonotonousPoints p bs.height Component.Y with
  | Except.error e => Except.error e
  | Except.ok true => Except.ok (false, false)
  | Except.ok false =>
  match areThereNMonotonousPoints p bs.width Component.Y with
  | Except.error e => Except.error e
  | Except.ok true => Except.ok (true, true)
  | Except.ok false =>
  match areThereNMonotonousPoints p bs.height Component.X with
  | Except.error e => Except.error e
  | Except.ok true => Except.ok (false, true)
  | Except.ok false => Except.error Err.unexpectedOrder

/-- The overload `getSteps(byRow, bs, A, B, C, wloop, hloop)`; the result is
the pair `(wloop, hloop)`. -/
def getStepsABC (byRow : Bool) (bs : Size) (A B C : Point2f) :
    loop_control × loop_control :=
  let wstride := bs.width
  let hstride := bs.height
  let hloop :=
    if A.x < B.x then loop_control.ctor 0 wstride
    else loop_control.ctor (wstride - 1) (-1)
  let wloop :=
    if A.y < C.y then loop_control.ctor 0 hstride
    else loop_control.ctor (hstride - 1) (-1)
  if !byRow then (hloop, wloop) else (wloop, hloop)

/-- The overload `getSteps(p, bs, byRow, wloop, hloop)`; the result is the
triple `(byRow, wloop, hloop)`. -/
def getSteps (p : List Point2f) (bs : Size) :
    Except Err (Bool × loop_control × loop_control) :=
  match getPointsOrientation p bs with
  | Except.error e => Except.error e
  | Except.ok (byRow, transposed) =>
    if transposed then Except.error Err.notSupported
    else if byRow then
      match getPoint p bs.width 0 0, getPoint p bs.width 0 1, getPoint p bs.width 1 0 with
      | Except.ok first, Except.ok second, Except.ok third =>
        Except.ok (byRow, getStepsABC byRow bs first second third)
      | _, _, _ => Except.error Err.outOfBounds
    else
      match getPoint p bs.height 0 0, getPoint p bs.height 1 0, getPoint p bs.height 0 1 with
      | Except.ok first, Except.ok second, Except.ok third =>
        Except.ok (byRow, getStepsABC byRow bs first second third)
      | _, _, _ => Except.error Err.outOfBounds

/-- The assignment `result[i][j] = P`. -/
def setCell (result : Grid) (i j : Nat) (P : Point2f) : Except Err Grid :=
  match result[i]? with
  | none => Except.error Err.outOfBounds
  | some row =>
    if j < row.length then Except.ok (result.set i (row.set j P))
    else Except.error Err.outOfBounds

/-- The loop `for (int i = 0, ii = lc.start; ii != lc.stop; ++i, ii += lc.step) body`,
entered with the current `i`, `ii` and state, run for at most `fuel` passes. -/
def forLoop {σ : Type} (lc : loop_control) (body : Nat → Int → σ → Except Err σ) :
    Nat → Nat → Int → σ → Except Err σ
  | 0, _, ii, s => if ii = lc.stop then Except.ok s else Except.error Err.outOfFuel
  | fuel + 1, i, ii, s =>
    if ii = lc.stop then Except.ok s
    else
      match body i ii s with
      | Except.error e => Except.error e
      | Except.ok s' => forLoop lc body fuel (i + 1) (ii + lc.step) s'

/-- The function `orderChessboardCorners(chessboardCorners, boardSize)`; each of
its loops may run for at most `fuel` passes. -/
def orderChessboardCorners (fuel : Nat) (chessboardCorners : List Point2f)
    (boardSize : Size) : Except Err Grid :=
  if boardSize.height < 0 ∨ boardSize.width < 0 then Except.error Err.badLength
  else
    let result : Grid :=
      List.replicate boardSize.height.toNat (List.replicate boardSize.width.toNat default)
    match getSteps chessboardCorners boardSize with
    | Except.error e => Except.error e
    | Except.ok (isByRow, iloop, jloop) =>
      if isByRow then
        forLoop iloop (fun i ii res =>
          forLoop jloop (fun j jj res =>
            match getPoint chessboardCorners boardSize.width ii jj with
            | Except.error e => Except.error e
            | Except.ok P => setCell res i j P) fuel 0 jloop.start res)
          fuel 0 iloop.start result
      else
        forLoop iloop (fun i ii res =>
          forLoop jloop (fun j jj res =>
            match getPoint chessboardCorners boardSize.height ii jj with
            | Except.error e => Except.error e
            | Except.ok P => setCell res j i P) fuel 0 jloop.start res)
          fuel 0 iloop.start result

/-- The function `getTwoBottomLeftPoints(points)`:
`(points.back()[0], points.back()[1])`. -/
def getTwoBottomLeftPoints (points : Grid) : Except Err (Point2f × Point2f) :=
  match points.getLast? with
  | none => Except.error Err.outOfBounds
  | some row =>
    match row[0]?, row[1]? with
    | some P, some Q => Except.ok (P, Q)
    | _, _ => Except.error Err.outOfBounds

/-- The overload `extractCorners(points)` on an ordered grid. -/
def extractCorners (points : Grid) : Except Err (List Point2f) :=
  match points.getLast?, points.head? with
  | some back, some front =>
    match back.head?, back.getLast?, front.getLast?, front.head? with
    | some bl, some br, some tr, some tl => Except.ok [bl, br, tr, tl]
    | _, _, _, _ => Except.error Err.outOfBounds
  | _, _ => Except.error Err.outOfBounds

/-- The overload `extractCorners(size)` on an image size. -/
def extractCornersOfSize (size : Size) : List Point2f :=
  [⟨0, size.height⟩, ⟨size.width, size.height⟩, ⟨size.width, 0⟩, ⟨0, 0⟩]

/-- The type `struct corners_info_t` of `main.cpp`. -/
structure corners_info_t where
  minX : ℚ
  maxX : ℚ
  minY : ℚ
  maxY : ℚ
  width : ℚ
  height : ℚ
  deriving DecidableEq

/-- The constructor `corners_info_t(corners)`, which reads `corners[0..3]`. -/
def corners_info_t.ctor (corners : List Point2f) : Except Err corners_info_t :=
  match corners[0]?, corners[1]?, corners[2]?, corners[3]? with
  | some c0, some c1, some c2, some c3 =>
    let minX := min (min c0.x c1.x) (min c2.x c3.x)
    let maxX := max (max c0.x c1.x) (max c2.x c3.x)
    let minY := min (min c0.y c1.y) (min c2.y c3.y)
    let maxY := max (max c0.y c1.y) (max c2.y c3.y)
    Except.ok
      { minX := minX, maxX := maxX, minY := minY, maxY := maxY,
        width := maxX - minX, height := maxY - minY }
  | _, _, _, _ => Except.error Err.outOfBounds

/-- The implicit conversion of a floating value to the 32-bit `int` of
`cv::Size`: the fractional part is discarded (rounding toward zero).  When the
integer part does not fit 32 bits C++ leaves the conversion undefined; the
value taken is the one the conversion instruction of x86 delivers, `INT_MIN`. -/
def floatToInt (q : ℚ) : Int :=
  let t := Int.tdiv q.num q.den
  if -2147483648 ≤ t ∧ t ≤ 2147483647 then t else -2147483648

/-- The loop `for (auto &P : pts) { P.x += shift.width; P.y += shift.height; }`. -/
def addShift (shift : Size) (pts : List Point2f) : List Point2f :=
  pts.map (fun P => ⟨P.x + shift.width, P.y + shift.height⟩)

/-- The external library functions used by `utils.cpp`, over the library's
matrix and image type `Mat`. -/
structure Collaborators (Mat : Type) where
  /-- `cv::findChessboardCorners`: the found flag and the corners written -/
  cvFindChessboardCorners : Mat → Size → Bool × List Point2f
  /-- `cv::cvtColor(image, viewGray, CV_BGR2GRAY)` -/
  cvtColor : Mat → Mat
  /-- `cv::cornerSubPix` with the fixed window and termination criteria -/
  cornerSubPix : Mat → List Point2f → List Point2f
  /-- `cv::norm` of a point -/
  norm : Point2f → ℚ
  /-- `cv::line(img, a, b, colour, thickness)` -/
  line : Mat → Point2f → Point2f → Int × Int × Int → Int → Mat
  /-- `cv::findHomography(from, to, CV_RANSAC)` -/
  findHomography : List Point2f → List Point2f → Mat
  /-- `cv::perspectiveTransform(points, out, H)` -/
  perspectiveTransform : List Point2f → Mat → List Point2f
  /-- `cv::warpPerspective(src, dst, H, size)` -/
  warpPerspective : Mat → Mat → Size → Mat
  /-- `cv::Size(m.cols, m.rows)` -/
  sizeOf : Mat → Size

/-- The output parameters `H`, `shift`, `imageCorners` of `computeHomography`. -/
structure HomographyOut (Mat : Type) where
  H : Mat
  shift : Size
  imageCorners : List Point2f
  deriving DecidableEq

/-- The function `computeHomography(from, to, size_from, H, shift, imageCorners)`. -/
def computeHomography {Mat : Type} (cv : Collaborators Mat) (from' to' : List Point2f)
    (size_from : Size) : Except Err (HomographyOut Mat) :=
  let preH := cv.findHomography from' to'
  let currentImageCorners := extractCornersOfSize size_from
  let newImageCorners := cv.perspectiveTransform currentImageCorners preH
  match corners_info_t.ctor newImageCorners with
  | Except.error e => Except.error e
  | Except.ok ci =>
    let shift : Size :=
      { width := floatToInt (if ci.minX < 0 then |ci.minX| else 0),
        height := floatToInt (if ci.minY < 0 then |ci.minY| else 0) }
    let to_ := addShift shift to'
    Except.ok
      { H := cv.findHomography from' to_,
        shift := shift,
        imageCorners := addShift shift newImageCorners }

/-- The wrapper `findChessboardCorners(image, chessboardSize, chessboardCorners)`:
the returned flag and the corners left in the output parameter. -/
def findChessboardCorners {Mat : Type} (cv : Collaborators Mat) (image : Mat)
    (chessboardSize : Size) : Bool × List Point2f :=
  let r := cv.cvFindChessboardCorners image chessboardSize
  if !r.1 then (false, r.2)
  else (true, cv.cornerSubPix (cv.cvtColor image) r.2)

/-- The loop `for (int i = 0; i < 4; ++i) cv::line(temp, q[i], q[(i + 1) % 4], colour, 5 + 2 * i)`. -/
def drawQuad {Mat : Type} (cv : Collaborators Mat) (temp : Mat) (q : List Point2f)
    (colour : Int × Int × Int) : Mat :=
  (List.range 4).foldl
    (fun t i => cv.line t (q.getD i default) (q.getD ((i + 1) % 4) default) colour (5 + 2 * i))
    temp

/-- The output parameters `result`, `chessboardCornersOrig`, `chessboardCorners`
and `imageCorners` of `projectToTheFloor`. -/
structure FloorOut (Mat : Type) where
  result : Mat
  chessboardCornersOrig : List Point2f
  chessboardCorners : List Point2f
  imageCorners : List Point2f
  deriving DecidableEq

/-- The corners `targetRectangleCorners` built by `projectToTheFloor` from the
bottom-left point `blp` and the square size. -/
def targetRectangle (blp : Point2f) (squareSize : ℚ) (chessboardSize : Size) :
    List Point2f :=
  [⟨blp.x, blp.y⟩,
   ⟨blp.x + squareSize * (chessboardSize.width - 1), blp.y⟩,
   ⟨blp.x + squareSize * (chessboardSize.width - 1),
     blp.y - squareSize * (chessboardSize.height - 1)⟩,
   ⟨blp.x, blp.y - squareSize * (chessboardSize.height - 1)⟩]

/-- The function `projectToTheFloor(image, chessboardSize, result,
chessboardCornersOrig, chessboardCorners, imageCorners)` of `utils.cpp`: `out`
holds the output parameters on entry, the result is the returned flag and the
output parameters on exit. -/
def projectToTheFloor {Mat : Type} (cv : Collaborators Mat) (fuel : Nat) (image : Mat)
    (chessboardSize : Size) (out : FloorOut Mat) : Except Err (Bool × FloorOut Mat) :=
  let found := findChessboardCorners cv image chessboardSize
  let chessboardCornersTemp := found.2
  if !found.1 then Except.ok (false, out)
  else
    let temp := image
    match orderChessboardCorners fuel chessboardCornersTemp chessboardSize with
    | Except.error e => Except.error e
    | Except.ok ordered =>
    match getTwoBottomLeftPoints ordered with
    | Except.error e => Except.error e
    | Except.ok twoPoints =>
    let blp := twoPoints.1
    let blpn := twoPoints.2
    let squareSize := cv.norm ⟨blp.x - blpn.x, blp.y - blpn.y⟩
    let targetRectangleCorners := targetRectangle blp squareSize chessboardSize
    let temp := drawQuad cv temp targetRectangleCorners (255, 0, 0)
    match extractCorners ordered with
    | Except.error e => Except.error e
    | Except.ok currentRectangleCorners =>
    let temp := drawQuad cv temp currentRectangleCorners (0, 0, 255)
    match computeHomography cv currentRectangleCorners targetRectangleCorners
        (cv.sizeOf temp) with
    | Except.error e => Except.error e
    | Except.ok hom =>
    match corners_info_t.ctor hom.imageCorners with
    | Except.error e => Except.error e
    | Except.ok ic =>
    Except.ok (true,
      { result := cv.warpPerspective temp hom.H ⟨floatToInt ic.width, floatToInt ic.height⟩,
        chessboardCornersOrig := currentRectangleCorners,
        chessboardCorners := addShift hom.shift targetRectangleCorners,
        imageCorners := hom.imageCorners })

/-! ## Notions used to state the properties -/

/-- A loop description whose loop makes exactly `n` passes: the step is one
unit and `stop` lies `n` steps after `start`. -/
def loop_control.Runs (lc : loop_control) (n : Nat) : Prop :=
  (lc.step = 1 ∨ lc.step = -1) ∧ lc.stop = lc.start + (n : Int) * lc.step

/-- A grid of `R` rows with `K` entries each. -/
def Shaped (res : Grid) (R K : Nat) : Prop :=
  res.length = R ∧ ∀ row ∈ res, row.length = K

/-- The cell `res[r][c]` exists and holds `v`. -/
def cellIs (res : Grid) (r c : Nat) (v : Point2f) : Prop :=
  ∃ row, res[r]? = some row ∧ row[c]? = some v

/-- The grid of `R` rows and `K` columns whose cell `(r, c)` is `F r c`. -/
def gridOfFn (R K : Nat) (F : Nat → Nat → Point2f) : Grid :=
  (List.range R).map (fun r => (List.range K).map (F r))

/-- The physical layout of an axis-aligned pattern: the point of row `r` and
column `c` is `(xs c, ys r)`. -/
def physGrid (xs ys : Nat → ℚ) (r c : Nat) : Point2f :=
  ⟨xs c, ys r⟩

/-- The coordinates of an axis-aligned pattern: `xs` strictly increases over
the `cols` columns and `ys` over the `rows` rows. -/
def AxisAligned (xs ys : Nat → ℚ) (rows cols : Nat) : Prop :=
  (∀ c, c + 1 < cols → xs c < xs (c + 1)) ∧ (∀ r, r + 1 < rows → ys r < ys (r + 1))

/-- Row-major forward scan: `p[r * cols + c] = G[r][c]`. -/
def RowMajorFwd (p : List Point2f) (G : Nat → Nat → Point2f) (rows cols : Nat) : Prop :=
  p.length = rows * cols ∧
    ∀ r c, r < rows → c < cols → p[r * cols + c]? = some (G r c)

/-- Row-major reversed scan: `p[r * cols + c] = G[rows - 1 - r][cols - 1 - c]`. -/
def RowMajorRev (p : List Point2f) (G : Nat → Nat → Point2f) (rows cols : Nat) : Prop :=
  p.length = rows * cols ∧
    ∀ r c, r < rows → c < cols → p[r * cols + c]? = some (G (rows - 1 - r) (cols - 1 - c))

/-- Column-major forward scan: `p[c * rows + r] = G[r][c]`. -/
def ColMajorFwd (p : List Point2f) (G : Nat → Nat → Point2f) (rows cols : Nat) : Prop :=
  p.length = rows * cols ∧
    ∀ r c, r < rows → c < cols → p[c * rows + r]? = some (G r c)

/-- Column-major reversed scan: `p[c * rows + r] = G[rows - 1 - r][cols - 1 - c]`. -/
def ColMajorRev (p : List Point2f) (G : Nat → Nat → Point2f) (rows cols : Nat) : Prop :=
  p.length = rows * cols ∧
    ∀ r c, r < rows → c < cols → p[c * rows + r]? = some (G (rows - 1 - r) (cols - 1 - c))

/-- A layout running left to right: `x` strictly increases along every row. -/
def LeftToRight (G : Nat → Nat → Point2f) (rows cols : Nat) : Prop :=
  ∀ r c, r < rows → c + 1 < cols → (G r c).x < (G r (c + 1)).x

/-- A layout running top to bottom: `y` strictly increases down every column. -/
def TopToBottom (G : Nat → Nat → Point2f) (rows cols : Nat) : Prop :=
  ∀ r c, r + 1 < rows → c < cols → (G r c).y < (G (r + 1) c).y

/-- The index `k` or its mirror image `n - 1 - k`. -/
def mirror (fwd : Bool) (n k : Nat) : Nat :=
  if fwd then k else n - 1 - k

/-- The loop description chosen by `getSteps` for an axis of `n` entries. -/
def dirLoop (fwd : Bool) (n : Int) : loop_control :=
  if fwd then loop_control.ctor 0 n else loop_control.ctor (n - 1) (-1)

/-- The flat index whose point `orderChessboardCorners` stores in cell `(r, c)`
of a `rows x cols` grid, for the scan axis `byRow` found by the detector. -/
def srcIndex (p : List Point2f) (rows cols : Nat) (byRow : Bool) (r c : Nat) : Nat :=
  if byRow then
    mirror (decide ((p.getD 0 default).y < (p.getD cols default).y)) rows r * cols
      + mirror (decide ((p.getD 0 default).x < (p.getD 1 default).x)) cols c
  else
    mirror (decide ((p.getD 0 default).x < (p.getD rows default).x)) cols c * rows
      + mirror (decide ((p.getD 0 default).y < (p.getD 1 default).y)) rows r

/-! ## Sample inputs -/

/-- Unit spacing: the coordinate of line `k` is `k`. -/
def unitAxis (k : Nat) : ℚ := k

/-- A 2-row, 3-column unit pattern scanned row by row, forward. -/
def sampleRowFwd : List Point2f :=
  [⟨0, 0⟩, ⟨1, 0⟩, ⟨2, 0⟩, ⟨0, 1⟩, ⟨1, 1⟩, ⟨2, 1⟩]

/-- The same pattern scanned row by row, fully reversed. -/
def sampleRowRev : List Point2f :=
  [⟨2, 1⟩, ⟨1, 1⟩, ⟨0, 1⟩, ⟨2, 0⟩, ⟨1, 0⟩, ⟨0, 0⟩]

/-- The same pattern scanned column by column, forward. -/
def sampleColFwd : List Point2f :=
  [⟨0, 0⟩, ⟨0, 1⟩, ⟨1, 0⟩, ⟨1, 1⟩, ⟨2, 0⟩, ⟨2, 1⟩]

/-- The same pattern scanned column by column, fully reversed. -/
def sampleColRev : List Point2f :=
  [⟨2, 1⟩, ⟨2, 0⟩, ⟨1, 1⟩, ⟨1, 0⟩, ⟨0, 1⟩, ⟨0, 0⟩]

/-- Six points for a 3-row, 2-column size whose first two points rise in `y`
while neither the first two move in `x` nor the first three are monotonic in `y`. -/
def sampleTransposed : List Point2f :=
  [⟨0, 0⟩, ⟨0, 1⟩, ⟨0, 0⟩, ⟨1, 1⟩, ⟨2, 0⟩, ⟨2, 1⟩]

/-- Three points sharing one `x` coordinate. -/
def sampleDegenerate : List Point2f :=
  [⟨0, 0⟩, ⟨0, 0⟩, ⟨0, 0⟩]

/-- The 5-column, 4-row unit pattern of `bSize = Size(5, 4)`, scanned row by
row from the top-left point: `p[r * 5 + c] = (c, r)`. -/
def sample54 : List Point2f :=
  (List.range 20).map (fun k => ⟨((k % 5 : Nat) : ℚ), ((k / 5 : Nat) : ℚ)⟩)

/-- Stand-ins for the library functions, over the one-point matrix type: the
detector reports the row-major sample, the point transform always answers
the quadrilateral `(-1/2, 5/2), (4, 3), (4, -7/3), (0, 0)`. -/
def sampleCv : Collaborators Unit where
  cvFindChessboardCorners := fun _ _ => (true, sampleRowFwd)
  cvtColor := fun m => m
  cornerSubPix := fun _ pts => pts
  norm := fun P => P.x * P.x + P.y * P.y
  line := fun m _ _ _ _ => m
  findHomography := fun _ _ => ()
  perspectiveTransform := fun _ _ =>
    [⟨mkRat (-1) 2, mkRat 5 2⟩, ⟨4, 3⟩, ⟨4, mkRat (-7) 3⟩, ⟨0, 0⟩]
  warpPerspective := fun m _ _ => m
  sizeOf := fun _ => ⟨4, 3⟩

/-- The stand-ins of `sampleCv` with a point transform that sends one canvas
corner to `x = -2^31`. -/
def hugeCv : Collaborators Unit :=
  { sampleCv with
    perspectiveTransform := fun _ _ => [⟨-2147483648, 0⟩, ⟨0, 0⟩, ⟨0, 1⟩, ⟨1, 1⟩] }

/-- The stand-ins of `sampleCv` with a detector that finds no pattern. -/
def sampleCvNotFound : Collaborators Unit :=
  { sampleCv with cvFindChessboardCorners := fun _ _ => (false, []) }

/-- Stand-ins whose matrices are point lists: the fit answers the source
points it was given and the warp answers the matrix it was given, so the
image returned by `projectToTheFloor` shows the `from` of the final fit. -/
def recordCv : Collaborators (List Point2f) where
  cvFindChessboardCorners := fun _ _ => (true, sampleRowFwd)
  cvtColor := fun m => m
  cornerSubPix := fun _ pts => pts
  norm := fun P => P.x * P.x + P.y * P.y
  line := fun m _ _ _ _ => m
  findHomography := fun src _ => src
  perspectiveTransform := fun _ _ =>
    [⟨mkRat (-1) 2, mkRat 5 2⟩, ⟨4, 3⟩, ⟨4, mkRat (-7) 3⟩, ⟨0, 0⟩]
  warpPerspective := fun _ H _ => H
  sizeOf := fun _ => ⟨4, 3⟩

/-! ## The monotonicity test -/

/-- The counters of `areThereNMonotonousPoints` after the passes `i = 1 .. k`. -/
theorem monotonous_counters (p : List Point2f) (c : Component) (k : Nat) :
    ((List.range' 1 k).foldl (monotonousStep p c) (1, 1)).1 ≤ (k : Int) + 1 ∧
    ((List.range' 1 k).foldl (monotonousStep p c) (1, 1)).2 ≤ (k : Int) + 1 ∧
    (((List.range' 1 k).foldl (monotonousStep p c) (1, 1)).2 = (k : Int) + 1 ↔
      ∀ i, i < k → (p.getD i default).comp c < (p.getD (i + 1) default).comp c) ∧
    (((List.range' 1 k).foldl (monotonousStep p c) (1, 1)).1 = (k : Int) + 1 ↔
      ∀ i, i < k → (p.getD (i + 1) default).comp c < (p.getD i default).comp c) := by
  induction k with
  | zero => simp
  | succ k ih =>
    obtain ⟨h1, h2, h3, h4⟩ := ih
    rw [List.range'_concat, List.foldl_append]
    simp only [List.foldl_cons, List.foldl_nil, Nat.mul_one, Nat.one_mul]
    generalize (List.range' 1 k).foldl (monotonousStep p c) (1, 1) = cnt at h1 h2 h3 h4
    have hk : 1 + k - 1 = k := by omega
    have hk' : 1 + k = k + 1 := by omega
    unfold monotonousStep
    simp only [hk, hk', gt_iff_lt]
    have hall : ∀ (P : Nat → Prop), (∀ i, i < k + 1 → P i) ↔ ((∀ i, i < k → P i) ∧ P k) := by
      intro P
      constructor
      · intro h
        exact ⟨fun i hi => h i (by omega), h k (by omega)⟩
      · rintro ⟨h, hk⟩ i hi
        rcases Nat.lt_succ_iff_lt_or_eq.mp hi with h' | h'
        · exact h i h'
        · subst h'; exact hk
    rw [hall, hall]
    push_cast
    by_cases hgt : (p.getD k default).comp c < (p.getD (k + 1) default).comp c
    · simp only [hgt, if_true]
      refine ⟨by omega, by omega, ?_, ?_⟩
      · rw [← h3]
        constructor
        · intro h; exact ⟨by omega, trivial⟩
        · rintro ⟨h, -⟩; omega
      · constructor
        · intro h; omega
        · rintro ⟨-, h⟩; exact absurd h (not_lt.mpr hgt.le)
    · simp only [hgt, if_false]
      by_cases hlt : (p.getD (k + 1) default).comp c < (p.getD k default).comp c
      · simp only [hlt, if_true]
        refine ⟨by omega, by omega, ?_, ?_⟩
        · constructor
          · intro h; omega
          · rintro ⟨-, h⟩; exact h.elim
        · rw [← h4]
          constructor
          · intro h; exact ⟨by omega, trivial⟩
          · rintro ⟨h, -⟩; omega
      · simp only [hlt, if_false]
        refine ⟨by omega, by omega, ?_, ?_⟩
        · constructor
          · intro h; omega
          · rintro ⟨-, h⟩; exact h.elim
        · constructor
          · intro h; omega
          · rintro ⟨-, h⟩; exact h.elim

/-- The test succeeds exactly on strictly increasing or strictly decreasing
coordinates. -/
theorem monotonous_iff (p : List Point2f) (N : Nat) (c : Component) (hN : N < p.length) :
    ∃ b, areThereNMonotonousPoints p N c = Except.ok b ∧ (b = true ↔ (1 ≤ N ∧
      ((∀ i, i + 1 < N → (p.getD i default).comp c < (p.getD (i + 1) default).comp c) ∨
       (∀ i, i + 1 < N → (p.getD (i + 1) default).comp c < (p.getD i default).comp c)))) := by
  unfold areThereNMonotonousPoints
  have h0 : (0 : Int) ≤ (N : Int) ∧ (N : Int) < (p.length : Int) := ⟨by omega, by omega⟩
  rw [if_pos h0]
  refine ⟨_, rfl, ?_⟩
  simp only [Int.toNat_ofNat]
  rcases Nat.eq_zero_or_pos N with hz | hp
  · subst hz
    simp
  · obtain ⟨h1, h2, h3, h4⟩ := monotonous_counters p c (N - 1)
    have hc : ((N - 1 : Nat) : Int) + 1 = (N : Int) := by omega
    rw [hc] at h3 h4
    have e1 : ∀ (P : Nat → Prop), (∀ i, i < N - 1 → P i) ↔ (∀ i, i + 1 < N → P i) := by
      intro P
      constructor
      · intro h i hi; exact h i (by omega)
      · intro h i hi; exact h i (by omega)
    rw [e1] at h3 h4
    simp only [Bool.or_eq_true, decide_eq_true_eq]
    rw [eq_comm, h3, eq_comm, h4]
    constructor
    · intro h; exact ⟨hp, h⟩
    · rintro ⟨-, h⟩; exact h

/-! ## Loops -/

theorem ctor_up_runs (n : Nat) : (loop_control.ctor 0 (n : Int)).Runs n := by
  unfold loop_control.Runs loop_control.ctor
  by_cases h : (0 : Int) < (n : Int)
  · simp [h]
  · have : n = 0 := by omega
    subst this
    simp

theorem ctor_down_runs (n : Nat) : (loop_control.ctor ((n : Int) - 1) (-1)).Runs n := by
  unfold loop_control.Runs loop_control.ctor
  have h : ¬ ((n : Int) - 1 < -1) := by omega
  rw [if_neg h]
  exact ⟨Or.inr rfl, by ring⟩

/-- Hoare rule for `forLoop`: a loop that makes `n` passes, with an invariant
kept by every pass, ends with the invariant at `n` when `fuel` allows `n` passes. -/
theorem forLoop_inv {σ : Type} (lc : loop_control) (body : Nat → Int → σ → Except Err σ)
    (n : Nat) (Inv : Nat → σ → Prop) (hlc : lc.Runs n)
    (hbody : ∀ k s, k < n → Inv k s →
      ∃ s', body k (lc.start + (k : Int) * lc.step) s = Except.ok s' ∧ Inv (k + 1) s') :
    ∀ (m fuel k : Nat) (s : σ), k + m = n → m ≤ fuel → Inv k s →
      ∃ s', forLoop lc body fuel k (lc.start + (k : Int) * lc.step) s = Except.ok s' ∧
        Inv n s' := by
  intro m
  induction m with
  | zero =>
    intro fuel k s hk _ hinv
    have hkn : k = n := by omega
    subst hkn
    have hstop : lc.start + (k : Int) * lc.step = lc.stop := hlc.2.symm
    refine ⟨s, ?_, hinv⟩
    cases fuel <;> simp [forLoop, hstop]
  | succ m ih =>
    intro fuel k s hk hfuel hinv
    obtain ⟨f, rfl⟩ : ∃ f, fuel = f + 1 := ⟨fuel - 1, by omega⟩
    have hne : lc.start + (k : Int) * lc.step ≠ lc.stop := by
      rw [hlc.2]
      rcases hlc.1 with h | h <;> rw [h] <;> omega
    obtain ⟨s', hb, hinv'⟩ := hbody k s (by omega) hinv
    obtain ⟨s'', hs, hfin⟩ := ih f (k + 1) s' (by omega) (by omega) hinv'
    refine ⟨s'', ?_, hfin⟩
    rw [forLoop, if_neg hne, hb]
    have e : lc.start + (k : Int) * lc.step + lc.step
        = lc.start + ((k + 1 : Nat) : Int) * lc.step := by
      push_cast; ring
    simp only [e]
    exact hs

/-- Form of `forLoop_inv` for a loop entered at its start. -/
theorem forLoop_run {σ : Type} (lc : loop_control) (body : Nat → Int → σ → Except Err σ)
    (n : Nat) (Inv : Nat → σ → Prop) (hlc : lc.Runs n)
    (hbody : ∀ k s, k < n → Inv k s →
      ∃ s', body k (lc.start + (k : Int) * lc.step) s = Except.ok s' ∧ Inv (k + 1) s')
    (fuel : Nat) (hfuel : n ≤ fuel) (s : σ) (h0 : Inv 0 s) :
    ∃ s', forLoop lc body fuel 0 lc.start s = Except.ok s' ∧ Inv n s' := by
  have h := forLoop_inv lc body n Inv hlc hbody n fuel 0 s (by omega) hfuel h0
  simpa using h

/-! ## Writing into the grid -/

theorem setCell_spec (res : Grid) (R K i j : Nat) (P : Point2f) (hs : Shaped res R K)
    (hi : i < R) (hj : j < K) :
    ∃ res', setCell res i j P = Except.ok res' ∧ Shaped res' R K ∧ cellIs res' i j P ∧
      ∀ r c v, (r ≠ i ∨ c ≠ j) → cellIs res r c v → cellIs res' r c v := by
  obtain ⟨hlen, hrows⟩ := hs
  have hil : i < res.length := by omega
  have hrow : res[i]? = some res[i] := List.getElem?_eq_getElem hil
  have hK : (res[i]).length = K := hrows _ (List.getElem_mem hil)
  refine ⟨res.set i ((res[i]).set j P), ?_, ⟨?_, ?_⟩, ?_, ?_⟩
  · unfold setCell
    rw [hrow]
    simp only
    rw [if_pos (by omega)]
  · rw [List.length_set]; exact hlen
  · intro row hmem
    rcases List.mem_or_eq_of_mem_set hmem with h | h
    · exact hrows row h
    · rw [h, List.length_set]; exact hK
  · refine ⟨(res[i]).set j P, List.getElem?_set_self hil, ?_⟩
    exact List.getElem?_set_self (by omega)
  · rintro r c v hne ⟨row, h1, h2⟩
    by_cases hr : r = i
    · subst hr
      have hc : c ≠ j := by
        rcases hne with h | h
        · exact absurd rfl h
        · exact h
      rw [hrow] at h1
      cases h1
      refine ⟨(res[r]).set j P, List.getElem?_set_self hil, ?_⟩
      rw [List.getElem?_set_ne (Ne.symm hc)]
      exact h2
    · refine ⟨row, ?_, h2⟩
      rw [List.getElem?_set_ne (Ne.symm hr)]
      exact h1

/-- A grid with the right shape and the right cells is the tabulated grid. -/
theorem eq_gridOfFn (res : Grid) (R K : Nat) (F : Nat → Nat → Point2f)
    (hs : Shaped res R K) (hc : ∀ r c, r < R → c < K → cellIs res r c (F r c)) :
    res = gridOfFn R K F := by
  obtain ⟨hlen, hrows⟩ := hs
  unfold gridOfFn
  apply List.ext_getElem
  · simp [hlen]
  · intro r h1 h2
    have hr : r < R := by omega
    simp only [List.getElem_map, List.getElem_range]
    have hK : (res[r]).length = K := hrows _ (List.getElem_mem h1)
    apply List.ext_getElem
    · simp [hK]
    · intro c h3 h4
      have hcK : c < K := by omega
      obtain ⟨row, e1, e2⟩ := hc r c hr hcK
      rw [List.getElem?_eq_getElem h1] at e1
      cases e1
      rw [List.getElem?_eq_getElem h3] at e2
      simp only [List.getElem_map, List.getElem_range]
      exact Option.some.inj e2

theorem shaped_replicate (R K : Nat) (v : Point2f) :
    Shaped (List.replicate R (List.replicate K v)) R K := by
  refine ⟨by simp, ?_⟩
  intro row hmem
  rw [List.eq_of_mem_replicate hmem]
  simp

/-- The two nested loops of `orderChessboardCorners`: `t = false` is the loop
nest writing `result[i][j]`, `t = true` the one writing `result[j][i]`. -/
theorem nested_fill (p : List Point2f) (stride : Int) (t : Bool) (iloop jloop : loop_control)
    (ni nj R K : Nat) (V : Nat → Nat → Point2f)
    (hi : iloop.Runs ni) (hj : jloop.Runs nj)
    (hdim : ∀ i j, i < ni → j < nj →
      (if t then j else i) < R ∧ (if t then i else j) < K)
    (hread : ∀ i j, i < ni → j < nj →
      getPoint p stride (iloop.start + (i : Int) * iloop.step)
        (jloop.start + (j : Int) * jloop.step) = Except.ok (V i j))
    (fuel : Nat) (hfi : ni ≤ fuel) (hfj : nj ≤ fuel) (res0 : Grid) (h0 : Shaped res0 R K) :
    ∃ res, forLoop iloop (fun i ii res =>
        forLoop jloop (fun j jj res =>
          match getPoint p stride ii jj with
          | Except.error e => Except.error e
          | Except.ok P => if t then setCell res j i P else setCell res i j P)
          fuel 0 jloop.start res) fuel 0 iloop.start res0 = Except.ok res ∧
      Shaped res R K ∧
      ∀ i j, i < ni → j < nj → cellIs res (if t then j else i) (if t then i else j) (V i j) := by
  have hinj : ∀ a b i j : Nat, ((if t then b else a) ≠ (if t then j else i) ∨
      (if t then a else b) ≠ (if t then i else j)) ↔ (a ≠ i ∨ b ≠ j) := by
    intro a b i j
    cases t <;> simp [or_comm]
  have houter := forLoop_run iloop (fun i ii res =>
        forLoop jloop (fun j jj res =>
          match getPoint p stride ii jj with
          | Except.error e => Except.error e
          | Except.ok P => if t then setCell res j i P else setCell res i j P)
          fuel 0 jloop.start res) ni
      (fun k res => Shaped res R K ∧
        ∀ a b, a < k → b < nj → cellIs res (if t then b else a) (if t then a else b) (V a b))
      hi ?_ fuel hfi res0 ⟨h0, fun a b ha => absurd ha (Nat.not_lt_zero a)⟩
  · obtain ⟨res, h1, h2, h3⟩ := houter
    exact ⟨res, h1, h2, fun i j hi' hj' => h3 i j hi' hj'⟩
  · intro i res hik hInv
    have hinner := forLoop_run jloop (fun j jj res =>
          match getPoint p stride (iloop.start + (i : Int) * iloop.step) jj with
          | Except.error e => Except.error e
          | Except.ok P => if t then setCell res j i P else setCell res i j P) nj
      (fun k res => Shaped res R K ∧
        (∀ a b, a < i → b < nj →
          cellIs res (if t then b else a) (if t then a else b) (V a b)) ∧
        (∀ b, b < k → cellIs res (if t then b else i) (if t then i else b) (V i b)))
      hj ?_ fuel hfj res ⟨hInv.1, hInv.2, fun b hb => absurd hb (Nat.not_lt_zero b)⟩
    · obtain ⟨res', h1, h2, h3, h4⟩ := hinner
      refine ⟨res', h1, h2, ?_⟩
      intro a b ha hb
      rcases Nat.lt_succ_iff_lt_or_eq.mp ha with h | h
      · exact h3 a b h hb
      · subst h; exact h4 b hb
    · intro j res' hjk hInv'
      obtain ⟨hs, hprev, hcur⟩ := hInv'
      beta_reduce
      rw [hread i j hik hjk]
      simp only
      obtain ⟨hd1, hd2⟩ := hdim i j hik hjk
      obtain ⟨res'', e1, e2, e3, e4⟩ :=
        setCell_spec res' R K (if t then j else i) (if t then i else j) (V i j) hs hd1 hd2
      have hbody : (if t then setCell res' j i (V i j) else setCell res' i j (V i j))
          = Except.ok res'' := by
        cases t <;> simpa using e1
      refine ⟨res'', hbody, e2, ?_, ?_⟩
      · intro a b ha hb
        exact e4 _ _ _ ((hinj a b i j).mpr (Or.inl (by omega))) (hprev a b ha hb)
      · intro b hb
        rcases Nat.lt_succ_iff_lt_or_eq.mp hb with h | h
        · exact e4 _ _ _ ((hinj i b i j).mpr (Or.inr (by omega))) (hcur b h)
        · subst h; exact e3

/-! ## The grid organizer -/

theorem dirLoop_runs (fwd : Bool) (n : Nat) :
    (dirLoop fwd (n : Int)).Runs n ∧
      ∀ k, k < n → (dirLoop fwd (n : Int)).start + (k : Int) * (dirLoop fwd (n : Int)).step
        = ((mirror fwd n k : Nat) : Int) := by
  cases fwd
  · refine ⟨by simpa [dirLoop] using ctor_down_runs n, ?_⟩
    intro k hk
    have h : ¬ ((n : Int) - 1 < -1) := by omega
    simp only [dirLoop, mirror, loop_control.ctor, Bool.false_eq_true, if_false, if_neg h]
    omega
  · refine ⟨by simpa [dirLoop] using ctor_up_runs n, ?_⟩
    intro k hk
    have h : (0 : Int) < (n : Int) := by omega
    simp only [dirLoop, mirror, loop_control.ctor, if_true, if_pos h]
    omega

theorem mirror_lt (fwd : Bool) (n k : Nat) (hk : k < n) : mirror fwd n k < n := by
  unfold mirror
  split <;> omega

theorem getStepsABC_eq (byRow : Bool) (bs : Size) (A B C : Point2f) :
    getStepsABC byRow bs A B C =
      if byRow then
        (dirLoop (decide (A.y < C.y)) bs.height, dirLoop (decide (A.x < B.x)) bs.width)
      else
        (dirLoop (decide (A.x < B.x)) bs.width, dirLoop (decide (A.y < C.y)) bs.height) := by
  unfold getStepsABC dirLoop
  cases byRow <;> simp

theorem getPoint_ok (p : List Point2f) (stride y x : Int) (k : Nat)
    (hk : y * stride + x = (k : Int)) (hlt : k < p.length) :
    getPoint p stride y x = Except.ok (p.getD k default) := by
  unfold getPoint
  simp only [hk]
  rw [if_pos (by omega)]
  simp [List.getElem?_eq_getElem hlt]

theorem flat_lt (a b R K : Nat) (ha : a < R) (hb : b < K) : a * K + b < R * K := by
  have h1 : (a + 1) * K ≤ R * K := Nat.mul_le_mul_right K ha
  have h2 : (a + 1) * K = a * K + K := by ring
  omega

/-- What the organizer returns on a list of `rows * cols` points whose
orientation is found and not transposed: cell `(r, c)` holds `p[srcIndex r c]`. -/
theorem order_spec (p : List Point2f) (rows cols : Nat) (byRow : Bool)
    (hr : 2 ≤ rows) (hc : 2 ≤ cols) (hlen : p.length = rows * cols)
    (hor : getPointsOrientation p ⟨cols, rows⟩ = Except.ok (byRow, false))
    (fuel : Nat) (hf1 : rows ≤ fuel) (hf2 : cols ≤ fuel) :
    orderChessboardCorners fuel p ⟨cols, rows⟩ =
      Except.ok (gridOfFn rows cols
        (fun r c => p.getD (srcIndex p rows cols byRow r c) default)) := by
  have hlen2 : 2 * cols ≤ p.length := by
    rw [hlen]; exact Nat.mul_le_mul_right cols hr
  have hlen3 : 2 * rows ≤ p.length := by
    rw [hlen, Nat.mul_comm rows cols]; exact Nat.mul_le_mul_right rows hc
  unfold orderChessboardCorners
  have hneg : ¬ ((⟨cols, rows⟩ : Size).height < 0 ∨ (⟨cols, rows⟩ : Size).width < 0) := by
    simp
  rw [if_neg hneg]
  unfold getSteps
  rw [hor]
  simp only [Bool.false_eq_true, if_false, Int.toNat_ofNat]
  cases byRow
  · -- scanned by columns
    simp only [Bool.false_eq_true, if_false]
    rw [getPoint_ok p rows 0 0 0 (by simp) (by omega),
      getPoint_ok p rows 1 0 rows (by simp) (by omega),
      getPoint_ok p rows 0 1 1 (by simp) (by omega)]
    simp only [getStepsABC_eq, Bool.false_eq_true, if_false]
    obtain ⟨hI, hIk⟩ := dirLoop_runs
      (decide ((p.getD 0 default).x < (p.getD rows default).x)) cols
    obtain ⟨hJ, hJk⟩ := dirLoop_runs
      (decide ((p.getD 0 default).y < (p.getD 1 default).y)) rows
    obtain ⟨res, h1, h2, h3⟩ := nested_fill p rows true _ _ cols rows rows cols
      (fun i j => p.getD (srcIndex p rows cols false j i) default) hI hJ
      (by intro i j hi hj; simpa using And.intro hj hi)
      (by
        intro i j hi hj
        rw [hIk i hi, hJk j hj]
        apply getPoint_ok
        · simp [srcIndex]
        · simp only [srcIndex, Bool.false_eq_true, if_false]
          rw [hlen, Nat.mul_comm rows cols]
          exact flat_lt _ _ _ _ (mirror_lt _ _ _ hi) (mirror_lt _ _ _ hj))
      fuel hf2 hf1 _ (shaped_replicate rows cols default)
    simp only [if_true] at h1 h3
    rw [h1]
    congr 1
    exact eq_gridOfFn res rows cols _ h2 (fun r c hr' hc' => h3 c r hc' hr')
  · -- scanned by rows
    simp only [if_true]
    rw [getPoint_ok p cols 0 0 0 (by simp) (by omega),
      getPoint_ok p cols 0 1 1 (by simp) (by omega),
      getPoint_ok p cols 1 0 cols (by simp) (by omega)]
    simp only [getStepsABC_eq, if_true]
    obtain ⟨hI, hIk⟩ := dirLoop_runs
      (decide ((p.getD 0 default).y < (p.getD cols default).y)) rows
    obtain ⟨hJ, hJk⟩ := dirLoop_runs
      (decide ((p.getD 0 default).x < (p.getD 1 default).x)) cols
    obtain ⟨res, h1, h2, h3⟩ := nested_fill p cols false _ _ rows cols rows cols
      (fun i j => p.getD (srcIndex p rows cols true i j) default) hI hJ
      (by intro i j hi hj; simpa using And.intro hi hj)
      (by
        intro i j hi hj
        rw [hIk i hi, hJk j hj]
        apply getPoint_ok
        · simp [srcIndex]
        · simp only [srcIndex, if_true]
          rw [hlen]
          exact flat_lt _ _ _ _ (mirror_lt _ _ _ hi) (mirror_lt _ _ _ hj))
      fuel hf1 hf2 _ (shaped_replicate rows cols default)
    simp only [Bool.false_eq_true, if_false] at h1 h3
    rw [h1]
    congr 1
    exact eq_gridOfFn res rows cols _ h2 (fun r c hr' hc' => h3 r c hr' hc')

/-! ## The four axis-aligned scan orders -/

theorem monotonous_true (p : List Point2f) (N : Nat) (c : Component) (hN : N < p.length)
    (h1 : 1 ≤ N)
    (h : (∀ i, i + 1 < N → (p.getD i default).comp c < (p.getD (i + 1) default).comp c) ∨
      (∀ i, i + 1 < N → (p.getD (i + 1) default).comp c < (p.getD i default).comp c)) :
    areThereNMonotonousPoints p N c = Except.ok true := by
  obtain ⟨b, hb, hiff⟩ := monotonous_iff p N c hN
  rw [hb, hiff.mpr ⟨h1, h⟩]

theorem monotonous_tie (p : List Point2f) (N : Nat) (c : Component) (hN : N < p.length)
    (h2 : 2 ≤ N) (h : (p.getD 0 default).comp c = (p.getD 1 default).comp c) :
    areThereNMonotonousPoints p N c = Except.ok false := by
  obtain ⟨b, hb, hiff⟩ := monotonous_iff p N c hN
  rw [hb]
  congr 1
  rw [Bool.eq_false_iff]
  intro hbt
  rcases (hiff.mp hbt).2 with h' | h'
  · have := h' 0 (by omega)
    simp only [Nat.zero_add] at this
    rw [h] at this
    exact lt_irrefl _ this
  · have := h' 0 (by omega)
    simp only [Nat.zero_add] at this
    rw [h] at this
    exact lt_irrefl _ this

theorem rowMajorFwd_get {p : List Point2f} {G : Nat → Nat → Point2f} {rows cols : Nat}
    (h : RowMajorFwd p G rows cols) (r c k : Nat) (hr : r < rows) (hc : c < cols)
    (hk : k = r * cols + c) : p.getD k default = G r c := by
  subst hk
  simp [h.2 r c hr hc]

theorem rowMajorRev_get {p : List Point2f} {G : Nat → Nat → Point2f} {rows cols : Nat}
    (h : RowMajorRev p G rows cols) (r c k : Nat) (hr : r < rows) (hc : c < cols)
    (hk : k = r * cols + c) : p.getD k default = G (rows - 1 - r) (cols - 1 - c) := by
  subst hk
  simp [h.2 r c hr hc]

theorem colMajorFwd_get {p : List Point2f} {G : Nat → Nat → Point2f} {rows cols : Nat}
    (h : ColMajorFwd p G rows cols) (r c k : Nat) (hr : r < rows) (hc : c < cols)
    (hk : k = c * rows + r) : p.getD k default = G r c := by
  subst hk
  simp [h.2 r c hr hc]

theorem colMajorRev_get {p : List Point2f} {G : Nat → Nat → Point2f} {rows cols : Nat}
    (h : ColMajorRev p G rows cols) (r c k : Nat) (hr : r < rows) (hc : c < cols)
    (hk : k = c * rows + r) : p.getD k default = G (rows - 1 - r) (cols - 1 - c) := by
  subst hk
  simp [h.2 r c hr hc]

theorem axis_x_desc {xs ys : Nat → ℚ} {rows cols : Nat} (hG : AxisAligned xs ys rows cols)
    (i : Nat) (hi : i + 1 < cols) : xs (cols - 1 - (i + 1)) < xs (cols - 1 - i) := by
  have h := hG.1 (cols - 1 - (i + 1)) (by omega)
  have e : cols - 1 - (i + 1) + 1 = cols - 1 - i := by omega
  rwa [e] at h

theorem axis_y_desc {xs ys : Nat → ℚ} {rows cols : Nat} (hG : AxisAligned xs ys rows cols)
    (i : Nat) (hi : i + 1 < rows) : ys (rows - 1 - (i + 1)) < ys (rows - 1 - i) := by
  have h := hG.2 (rows - 1 - (i + 1)) (by omega)
  have e : rows - 1 - (i + 1) + 1 = rows - 1 - i := by omega
  rwa [e] at h

theorem cols_lt {rows cols : Nat} (hr : 2 ≤ rows) (hc : 2 ≤ cols) : cols < rows * cols := by
  have := Nat.mul_le_mul_right cols hr
  omega

theorem rows_lt {rows cols : Nat} (hr : 2 ≤ rows) (hc : 2 ≤ cols) : rows < rows * cols := by
  have := Nat.mul_le_mul_left rows hc
  omega

theorem orientation_rowMajorFwd (rows cols : Nat) (hr : 2 ≤ rows) (hc : 2 ≤ cols)
    (xs ys : Nat → ℚ) (hG : AxisAligned xs ys rows cols) (p : List Point2f)
    (hp : RowMajorFwd p (physGrid xs ys) rows cols) :
    getPointsOrientation p ⟨cols, rows⟩ = Except.ok (true, false) := by
  unfold getPointsOrientation
  rw [monotonous_true p cols Component.X (by rw [hp.1]; exact cols_lt hr hc) (by omega)]
  left
  intro i hi
  rw [rowMajorFwd_get hp 0 i i (by omega) (by omega) (by simp),
    rowMajorFwd_get hp 0 (i + 1) (i + 1) (by omega) (by omega) (by simp)]
  exact hG.1 i hi

theorem orientation_rowMajorRev (rows cols : Nat) (hr : 2 ≤ rows) (hc : 2 ≤ cols)
    (xs ys : Nat → ℚ) (hG : AxisAligned xs ys rows cols) (p : List Point2f)
    (hp : RowMajorRev p (physGrid xs ys) rows cols) :
    getPointsOrientation p ⟨cols, rows⟩ = Except.ok (true, false) := by
  unfold getPointsOrientation
  rw [monotonous_true p cols Component.X (by rw [hp.1]; exact cols_lt hr hc) (by omega)]
  right
  intro i hi
  rw [rowMajorRev_get hp 0 i i (by omega) (by omega) (by simp),
    rowMajorRev_get hp 0 (i + 1) (i + 1) (by omega) (by omega) (by simp)]
  exact axis_x_desc hG i hi

theorem orientation_colMajorFwd (rows cols : Nat) (hr : 2 ≤ rows) (hc : 2 ≤ cols)
    (xs ys : Nat → ℚ) (hG : AxisAligned xs ys rows cols) (p : List Point2f)
    (hp : ColMajorFwd p (physGrid xs ys) rows cols) :
    getPointsOrientation p ⟨cols, rows⟩ = Except.ok (false, false) := by
  unfold getPointsOrientation
  rw [monotonous_tie p cols Component.X (by rw [hp.1]; exact cols_lt hr hc) hc
    (by
      rw [colMajorFwd_get hp 0 0 0 (by omega) (by omega) (by simp),
        colMajorFwd_get hp 1 0 1 (by omega) (by omega) (by simp)]
      rfl)]
  simp only
  rw [monotonous_true p rows Component.Y (by rw [hp.1]; exact rows_lt hr hc) (by omega)]
  left
  intro i hi
  rw [colMajorFwd_get hp i 0 i (by omega) (by omega) (by simp),
    colMajorFwd_get hp (i + 1) 0 (i + 1) (by omega) (by omega) (by simp)]
  exact hG.2 i hi

theorem orientation_colMajorRev (rows cols : Nat) (hr : 2 ≤ rows) (hc : 2 ≤ cols)
    (xs ys : Nat → ℚ) (hG : AxisAligned xs ys rows cols) (p : List Point2f)
    (hp : ColMajorRev p (physGrid xs ys) rows cols) :
    getPointsOrientation p ⟨cols, rows⟩ = Except.ok (false, false) := by
  unfold getPointsOrientation
  rw [monotonous_tie p cols Component.X (by rw [hp.1]; exact cols_lt hr hc) hc
    (by
      rw [colMajorRev_get hp 0 0 0 (by omega) (by omega) (by simp),
        colMajorRev_get hp 1 0 1 (by omega) (by omega) (by simp)]
      rfl)]
  simp only
  rw [monotonous_true p rows Component.Y (by rw [hp.1]; exact rows_lt hr hc) (by omega)]
  right
  intro i hi
  rw [colMajorRev_get hp i 0 i (by omega) (by omega) (by simp),
    colMajorRev_get hp (i + 1) 0 (i + 1) (by omega) (by omega) (by simp)]
  exact axis_y_desc hG i hi

theorem gridOfFn_congr (R K : Nat) (F F' : Nat → Nat → Point2f)
    (h : ∀ r c, r < R → c < K → F r c = F' r c) : gridOfFn R K F = gridOfFn R K F' := by
  unfold gridOfFn
  apply List.map_congr_left
  intro r hr
  apply List.map_congr_left
  intro c hc
  exact h r c (List.mem_range.mp hr) (List.mem_range.mp hc)

theorem order_rowMajorFwd (rows cols : Nat) (hr : 2 ≤ rows) (hc : 2 ≤ cols)
    (xs ys : Nat → ℚ) (hG : AxisAligned xs ys rows cols) (p : List Point2f)
    (hp : RowMajorFwd p (physGrid xs ys) rows cols)
    (fuel : Nat) (hf1 : rows ≤ fuel) (hf2 : cols ≤ fuel) :
    orderChessboardCorners fuel p ⟨cols, rows⟩ =
      Except.ok (gridOfFn rows cols (physGrid xs ys)) := by
  rw [order_spec p rows cols true hr hc hp.1
    (orientation_rowMajorFwd rows cols hr hc xs ys hG p hp) fuel hf1 hf2]
  congr 1
  apply gridOfFn_congr
  intro r c hr' hc'
  have hy : ys 0 < ys 1 := hG.2 0 (by omega)
  have hx : xs 0 < xs 1 := hG.1 0 (by omega)
  simp only [srcIndex, if_true,
    rowMajorFwd_get hp 0 0 0 (by omega) (by omega) (by simp),
    rowMajorFwd_get hp 1 0 cols (by omega) (by omega) (by simp),
    rowMajorFwd_get hp 0 1 1 (by omega) (by omega) (by simp),
    physGrid, hy, hx, decide_True, mirror]
  exact rowMajorFwd_get hp r c _ hr' hc' rfl

theorem order_rowMajorRev (rows cols : Nat) (hr : 2 ≤ rows) (hc : 2 ≤ cols)
    (xs ys : Nat → ℚ) (hG : AxisAligned xs ys rows cols) (p : List Point2f)
    (hp : RowMajorRev p (physGrid xs ys) rows cols)
    (fuel : Nat) (hf1 : rows ≤ fuel) (hf2 : cols ≤ fuel) :
    orderChessboardCorners fuel p ⟨cols, rows⟩ =
      Except.ok (gridOfFn rows cols (physGrid xs ys)) := by
  rw [order_spec p rows cols true hr hc hp.1
    (orientation_rowMajorRev rows cols hr hc xs ys hG p hp) fuel hf1 hf2]
  congr 1
  apply gridOfFn_congr
  intro r c hr' hc'
  have hy : ¬ (ys (rows - 1 - 0) < ys (rows - 1 - 1)) :=
    not_lt.mpr (axis_y_desc hG 0 (by omega)).le
  have hx : ¬ (xs (cols - 1 - 0) < xs (cols - 1 - 1)) :=
    not_lt.mpr (axis_x_desc hG 0 (by omega)).le
  simp only [srcIndex, if_true,
    rowMajorRev_get hp 0 0 0 (by omega) (by omega) (by simp),
    rowMajorRev_get hp 1 0 cols (by omega) (by omega) (by simp),
    rowMajorRev_get hp 0 1 1 (by omega) (by omega) (by simp),
    physGrid, hy, hx, decide_False, mirror, Bool.false_eq_true, if_false]
  rw [rowMajorRev_get hp (rows - 1 - r) (cols - 1 - c) _ (by omega) (by omega) rfl]
  have e1 : rows - 1 - (rows - 1 - r) = r := by omega
  have e2 : cols - 1 - (cols - 1 - c) = c := by omega
  rw [e1, e2]
  rfl

theorem order_colMajorFwd (rows cols : Nat) (hr : 2 ≤ rows) (hc : 2 ≤ cols)
    (xs ys : Nat → ℚ) (hG : AxisAligned xs ys rows cols) (p : List Point2f)
    (hp : ColMajorFwd p (physGrid xs ys) rows cols)
    (fuel : Nat) (hf1 : rows ≤ fuel) (hf2 : cols ≤ fuel) :
    orderChessboardCorners fuel p ⟨cols, rows⟩ =
      Except.ok (gridOfFn rows cols (physGrid xs ys)) := by
  rw [order_spec p rows cols false hr hc hp.1
    (orientation_colMajorFwd rows cols hr hc xs ys hG p hp) fuel hf1 hf2]
  congr 1
  apply gridOfFn_congr
  intro r c hr' hc'
  have hy : ys 0 < ys 1 := hG.2 0 (by omega)
  have hx : xs 0 < xs 1 := hG.1 0 (by omega)
  simp only [srcIndex, Bool.false_eq_true, if_false,
    colMajorFwd_get hp 0 0 0 (by omega) (by omega) (by simp),
    colMajorFwd_get hp 0 1 rows (by omega) (by omega) (by simp),
    colMajorFwd_get hp 1 0 1 (by omega) (by omega) (by simp),
    physGrid, hy, hx, decide_True, mirror, if_true]
  exact colMajorFwd_get hp r c _ hr' hc' rfl

theorem order_colMajorRev (rows cols : Nat) (hr : 2 ≤ rows) (hc : 2 ≤ cols)
    (xs ys : Nat → ℚ) (hG : AxisAligned xs ys rows cols) (p : List Point2f)
    (hp : ColMajorRev p (physGrid xs ys) rows cols)
    (fuel : Nat) (hf1 : rows ≤ fuel) (hf2 : cols ≤ fuel) :
    orderChessboardCorners fuel p ⟨cols, rows⟩ =
      Except.ok (gridOfFn rows cols (physGrid xs ys)) := by
  rw [order_spec p rows cols false hr hc hp.1
    (orientation_colMajorRev rows cols hr hc xs ys hG p hp) fuel hf1 hf2]
  congr 1
  apply gridOfFn_congr
  intro r c hr' hc'
  have hy : ¬ (ys (rows - 1 - 0) < ys (rows - 1 - 1)) :=
    not_lt.mpr (axis_y_desc hG 0 (by omega)).le
  have hx : ¬ (xs (cols - 1 - 0) < xs (cols - 1 - 1)) :=
    not_lt.mpr (axis_x_desc hG 0 (by omega)).le
  simp only [srcIndex, Bool.false_eq_true, if_false,
    colMajorRev_get hp 0 0 0 (by omega) (by omega) (by simp),
    colMajorRev_get hp 0 1 rows (by omega) (by omega) (by simp),
    colMajorRev_get hp 1 0 1 (by omega) (by omega) (by simp),
    physGrid, hy, hx, decide_False, mirror]
  rw [colMajorRev_get hp (rows - 1 - r) (cols - 1 - c) _ (by omega) (by omega) rfl]
  have e1 : rows - 1 - (rows - 1 - r) = r := by omega
  have e2 : cols - 1 - (cols - 1 - c) = c := by omega
  rw [e1, e2]
  rfl

theorem extractCorners_gridOfFn (R K : Nat) (F : Nat → Nat → Point2f) (hR : 1 ≤ R)
    (hK : 1 ≤ K) :
    extractCorners (gridOfFn R K F) =
      Except.ok [F (R - 1) 0, F (R - 1) (K - 1), F 0 (K - 1), F 0 0] := by
  unfold extractCorners gridOfFn
  have hR1 : R - 1 < R := by omega
  have hK1 : K - 1 < K := by omega
  have hR0 : 0 < R := by omega
  have hK0 : 0 < K := by omega
  simp [List.getLast?_eq_getElem?, List.head?_eq_getElem?, List.getElem?_range, hR1, hK1,
    hR0, hK0]

theorem axis_unit (rows cols : Nat) : AxisAligned unitAxis unitAxis rows cols := by
  constructor <;> intro k _ <;> simp [unitAxis]

theorem sampleRowFwd_ok : RowMajorFwd sampleRowFwd (physGrid unitAxis unitAxis) 2 3 := by
  refine ⟨rfl, ?_⟩
  intro r c hr hc
  interval_cases r <;> interval_cases c <;> simp [sampleRowFwd, physGrid, unitAxis]

theorem sampleRowRev_ok : RowMajorRev sampleRowRev (physGrid unitAxis unitAxis) 2 3 := by
  refine ⟨rfl, ?_⟩
  intro r c hr hc
  interval_cases r <;> interval_cases c <;> simp [sampleRowRev, physGrid, unitAxis]

theorem sampleColFwd_ok : ColMajorFwd sampleColFwd (physGrid unitAxis unitAxis) 2 3 := by
  refine ⟨rfl, ?_⟩
  intro r c hr hc
  interval_cases r <;> interval_cases c <;> simp [sampleColFwd, physGrid, unitAxis]

theorem sampleColRev_ok : ColMajorRev sampleColRev (physGrid unitAxis unitAxis) 2 3 := by
  refine ⟨rfl, ?_⟩
  intro r c hr hc
  interval_cases r <;> interval_cases c <;> simp [sampleColRev, physGrid, unitAxis]

/-! ## Claims about the orientation detector and the grid organizer -/

/-- C1: for rows, cols >= 2, an axis-aligned physical grid `G` and each of its
four flat orderings (row-major forward or reversed, column-major forward or
reversed), `orderChessboardCorners(p, Size(cols, rows))` succeeds and returns
the `rows x cols` grid whose cell `(r, c)` is `G[r][c]`. -/
theorem C1_order_reconstructs_grid (rows cols : Nat) (hr : 2 ≤ rows) (hc : 2 ≤ cols)
    (xs ys : Nat → ℚ) (hG : AxisAligned xs ys rows cols) (p : List Point2f)
    (hp : RowMajorFwd p (physGrid xs ys) rows cols ∨ RowMajorRev p (physGrid xs ys) rows cols ∨
      ColMajorFwd p (physGrid xs ys) rows cols ∨ ColMajorRev p (physGrid xs ys) rows cols)
    (fuel : Nat) (hf1 : rows ≤ fuel) (hf2 : cols ≤ fuel) :
    orderChessboardCorners fuel p ⟨cols, rows⟩ =
      Except.ok (gridOfFn rows cols (physGrid xs ys)) := by
  rcases hp with h | h | h | h
  · exact order_rowMajorFwd rows cols hr hc xs ys hG p h fuel hf1 hf2
  · exact order_rowMajorRev rows cols hr hc xs ys hG p h fuel hf1 hf2
  · exact order_colMajorFwd rows cols hr hc xs ys hG p h fuel hf1 hf2
  · exact order_colMajorRev rows cols hr hc xs ys hG p h fuel hf1 hf2

/-- C1 at the column-major reversed scan of the 2 x 3 unit pattern. -/
theorem C1_order_reconstructs_grid_witness :
    ColMajorRev sampleColRev (physGrid unitAxis unitAxis) 2 3 ∧
    orderChessboardCorners 3 sampleColRev ⟨3, 2⟩ =
      Except.ok [[⟨0, 0⟩, ⟨1, 0⟩, ⟨2, 0⟩], [⟨0, 1⟩, ⟨1, 1⟩, ⟨2, 1⟩]] :=
  ⟨sampleColRev_ok,
    (C1_order_reconstructs_grid 2 3 (by decide) (by decide) unitAxis unitAxis (axis_unit 2 3)
      sampleColRev (Or.inr (Or.inr (Or.inr sampleColRev_ok))) 3 (by decide) (by decide)).trans
      (by decide)⟩

/-- C2: for rows, cols >= 2 and an axis-aligned physical grid, the detector
`getPointsOrientation` returns `{byRow = true, transposed = false}` on the
row-major orderings (forward or reversed) and `{byRow = false, transposed =
false}` on the column-major orderings (forward or reversed); it never fails and
never reports transposed on them. -/
theorem C2_orientation_of_axis_aligned (rows cols : Nat) (hr : 2 ≤ rows) (hc : 2 ≤ cols)
    (xs ys : Nat → ℚ) (hG : AxisAligned xs ys rows cols) (p : List Point2f) :
    ((RowMajorFwd p (physGrid xs ys) rows cols ∨ RowMajorRev p (physGrid xs ys) rows cols) →
      getPointsOrientation p ⟨cols, rows⟩ = Except.ok (true, false)) ∧
    ((ColMajorFwd p (physGrid xs ys) rows cols ∨ ColMajorRev p (physGrid xs ys) rows cols) →
      getPointsOrientation p ⟨cols, rows⟩ = Except.ok (false, false)) := by
  constructor
  · rintro (h | h)
    · exact orientation_rowMajorFwd rows cols hr hc xs ys hG p h
    · exact orientation_rowMajorRev rows cols hr hc xs ys hG p h
  · rintro (h | h)
    · exact orientation_colMajorFwd rows cols hr hc xs ys hG p h
    · exact orientation_colMajorRev rows cols hr hc xs ys hG p h

/-- C2 at the column-major forward scan of the 2 x 3 unit pattern. -/
theorem C2_orientation_of_axis_aligned_witness :
    ColMajorFwd sampleColFwd (physGrid unitAxis unitAxis) 2 3 ∧
    getPointsOrientation sampleColFwd ⟨3, 2⟩ = Except.ok (false, false) :=
  ⟨sampleColFwd_ok,
    (C2_orientation_of_axis_aligned 2 3 (by decide) (by decide) unitAxis unitAxis
      (axis_unit 2 3) sampleColFwd).2 (Or.inl sampleColFwd_ok)⟩

/-- C3: for rows, cols >= 2 and an axis-aligned physical grid `G`,
`extractCorners(orderChessboardCorners(p, Size(cols, rows)))` is
`(G[rows-1][0], G[rows-1][cols-1], G[0][cols-1], G[0][0])`, the same for all
four supported flat orderings of `G`. -/
theorem C3_corners_round_trip (rows cols : Nat) (hr : 2 ≤ rows) (hc : 2 ≤ cols)
    (xs ys : Nat → ℚ) (hG : AxisAligned xs ys rows cols) (p : List Point2f)
    (hp : RowMajorFwd p (physGrid xs ys) rows cols ∨ RowMajorRev p (physGrid xs ys) rows cols ∨
      ColMajorFwd p (physGrid xs ys) rows cols ∨ ColMajorRev p (physGrid xs ys) rows cols)
    (fuel : Nat) (hf1 : rows ≤ fuel) (hf2 : cols ≤ fuel) :
    (orderChessboardCorners fuel p ⟨cols, rows⟩ >>= extractCorners) =
      Except.ok [physGrid xs ys (rows - 1) 0, physGrid xs ys (rows - 1) (cols - 1),
        physGrid xs ys 0 (cols - 1), physGrid xs ys 0 0] := by
  have h : orderChessboardCorners fuel p ⟨cols, rows⟩ =
      Except.ok (gridOfFn rows cols (physGrid xs ys)) := by
    rcases hp with h | h | h | h
    · exact order_rowMajorFwd rows cols hr hc xs ys hG p h fuel hf1 hf2
    · exact order_rowMajorRev rows cols hr hc xs ys hG p h fuel hf1 hf2
    · exact order_colMajorFwd rows cols hr hc xs ys hG p h fuel hf1 hf2
    · exact order_colMajorRev rows cols hr hc xs ys hG p h fuel hf1 hf2
  rw [h]
  exact extractCorners_gridOfFn rows cols _ (by omega) (by omega)

/-- C3 at the row-major reversed scan of the 2 x 3 unit pattern. -/
theorem C3_corners_round_trip_witness :
    RowMajorRev sampleRowRev (physGrid unitAxis unitAxis) 2 3 ∧
    (orderChessboardCorners 3 sampleRowRev ⟨3, 2⟩ >>= extractCorners) =
      Except.ok [⟨0, 1⟩, ⟨2, 1⟩, ⟨2, 0⟩, ⟨0, 0⟩] :=
  ⟨sampleRowRev_ok,
    (C3_corners_round_trip 2 3 (by decide) (by decide) unitAxis unitAxis (axis_unit 2 3)
      sampleRowRev (Or.inr (Or.inl sampleRowRev_ok)) 3 (by decide) (by decide)).trans
      (by decide)⟩

theorem monotonous_total (p : List Point2f) (N : Int) (c : Component) (h0 : 0 ≤ N)
    (hN : N < p.length) : ∃ b, areThereNMonotonousPoints p N c = Except.ok b := by
  unfold areThereNMonotonousPoints
  rw [if_pos ⟨h0, hN⟩]
  exact ⟨_, rfl⟩

/-- C4: the detector is a first-match-wins decision over four hypotheses.  With
H1 = `areThereNMonotonousPoints(p, cols, X)`, H2 = `(p, rows, Y)`, H3 = `(p, cols,
Y)`, H4 = `(p, rows, X)`, for every list with more than `max(rows, cols)` points
(sizes being counts, not negative), `getPointsOrientation` returns
`{true, false}` iff H1, `{false, false}` iff not H1 and H2, `{true, true}` iff
not H1, not H2 and H3, `{false, true}` iff not H1, not H2, not H3 and H4, and
fails, at `assert(false)`, iff none of H1..H4 holds; it fails in no other way. -/
theorem C4_first_match_wins (p : List Point2f) (bs : Size) (hw : 0 ≤ bs.width)
    (hh : 0 ≤ bs.height) (hn : max bs.height bs.width < p.length) :
    (getPointsOrientation p bs = Except.ok (true, false) ↔
      areThereNMonotonousPoints p bs.width Component.X = Except.ok true) ∧
    (getPointsOrientation p bs = Except.ok (false, false) ↔
      ¬ areThereNMonotonousPoints p bs.width Component.X = Except.ok true ∧
      areThereNMonotonousPoints p bs.height Component.Y = Except.ok true) ∧
    (getPointsOrientation p bs = Except.ok (true, true) ↔
      ¬ areThereNMonotonousPoints p bs.width Component.X = Except.ok true ∧
      ¬ areThereNMonotonousPoints p bs.height Component.Y = Except.ok true ∧
      areThereNMonotonousPoints p bs.width Component.Y = Except.ok true) ∧
    (getPointsOrientation p bs = Except.ok (false, true) ↔
      ¬ areThereNMonotonousPoints p bs.width Component.X = Except.ok true ∧
      ¬ areThereNMonotonousPoints p bs.height Component.Y = Except.ok true ∧
      ¬ areThereNMonotonousPoints p bs.width Component.Y = Except.ok true ∧
      areThereNMonotonousPoints p bs.height Component.X = Except.ok true) ∧
    (getPointsOrientation p bs = Except.error Err.unexpectedOrder ↔
      ¬ areThereNMonotonousPoints p bs.width Component.X = Except.ok true ∧
      ¬ areThereNMonotonousPoints p bs.height Component.Y = Except.ok true ∧
      ¬ areThereNMonotonousPoints p bs.width Component.Y = Except.ok true ∧
      ¬ areThereNMonotonousPoints p bs.height Component.X = Except.ok true) ∧
    (∀ e, getPointsOrientation p bs = Except.error e → e = Err.unexpectedOrder) := by
  have hwl : bs.width < p.length := lt_of_le_of_lt (le_max_right _ _) hn
  have hhl : bs.height < p.length := lt_of_le_of_lt (le_max_left _ _) hn
  obtain ⟨b1, e1⟩ := monotonous_total p bs.width Component.X hw hwl
  obtain ⟨b2, e2⟩ := monotonous_total p bs.height Component.Y hh hhl
  obtain ⟨b3, e3⟩ := monotonous_total p bs.width Component.Y hw hwl
  obtain ⟨b4, e4⟩ := monotonous_total p bs.height Component.X hh hhl
  unfold getPointsOrientation
  rw [e1, e2, e3, e4]
  cases b1 <;> cases b2 <;> cases b3 <;> cases b4 <;> simp

/-- C4 on the transposed sample: the first two hypotheses fail and the third
holds, so the answer is `{byRow = true, transposed = true}`. -/
theorem C4_first_match_wins_witness :
    max (3 : Int) 2 < (sampleTransposed.length : Int) ∧
    getPointsOrientation sampleTransposed ⟨2, 3⟩ = Except.ok (true, true) :=
  ⟨by decide,
    (C4_first_match_wins sampleTransposed ⟨2, 3⟩ (by decide) (by decide)
      (by decide)).2.2.1.mpr (by decide)⟩

/-- C5 as stated fails: on three points sharing one `x` coordinate, which is a
non-decreasing (and non-increasing) run, the test over the first two points
answers `false`. -/
theorem C5_tie_tolerant_counterexample :
    (∀ i, i + 1 < 2 → (sampleDegenerate.getD i default).comp Component.X
        ≤ (sampleDegenerate.getD (i + 1) default).comp Component.X) ∧
    areThereNMonotonousPoints sampleDegenerate 2 Component.X = Except.ok false := by
  refine ⟨?_, by decide⟩
  intro i hi
  have h0 : i = 0 := by omega
  subst h0
  decide

/-- C5 (amended): the test is strict.  For `N < |p|` it returns, without
failing, whether `N >= 1` and the `c`-coordinates of the first `N` points are
strictly increasing over all `N - 1` consecutive pairs or strictly decreasing
over all of them; a pair of equal coordinates advances neither counter. -/
theorem C5_strictly_monotonic (p : List Point2f) (N : Nat) (c : Component)
    (hN : N < p.length) :
    ∃ b, areThereNMonotonousPoints p N c = Except.ok b ∧ (b = true ↔ (1 ≤ N ∧
      ((∀ i, i + 1 < N → (p.getD i default).comp c < (p.getD (i + 1) default).comp c) ∨
       (∀ i, i + 1 < N → (p.getD (i + 1) default).comp c < (p.getD i default).comp c)))) :=
  monotonous_iff p N c hN

/-- C5 (amended) on the first four points of the row-major sample, whose `x`
coordinates 0, 1, 2, 0 are not monotonic. -/
theorem C5_strictly_monotonic_witness :
    ∃ b, areThereNMonotonousPoints sampleRowFwd (4 : Nat) Component.X = Except.ok b ∧
      (b = true ↔ (1 ≤ 4 ∧
        ((∀ i, i + 1 < 4 → (sampleRowFwd.getD i default).comp Component.X
            < (sampleRowFwd.getD (i + 1) default).comp Component.X) ∨
         (∀ i, i + 1 < 4 → (sampleRowFwd.getD (i + 1) default).comp Component.X
            < (sampleRowFwd.getD i default).comp Component.X)))) :=
  C5_strictly_monotonic sampleRowFwd 4 Component.X (by decide)

theorem order_transposed (p : List Point2f) (bs : Size) (byRow : Bool) (fuel : Nat)
    (hh : 0 ≤ bs.height) (hw : 0 ≤ bs.width)
    (hor : getPointsOrientation p bs = Except.ok (byRow, true)) :
    orderChessboardCorners fuel p bs = Except.error Err.notSupported := by
  unfold orderChessboardCorners
  rw [if_neg (by omega)]
  unfold getSteps
  rw [hor]
  simp

/-- C6: for a list of `rows * cols` points (rows, cols >= 2), when the detector
answers transposed the organizer fails at `assert(!transposed)` and returns no
grid, and when the detector answers not transposed the organizer returns a
grid (of `rows` rows with `cols` entries each). -/
theorem C6_transposed_rejected (rows cols : Nat) (hr : 2 ≤ rows) (hc : 2 ≤ cols)
    (p : List Point2f) (hlen : p.length = rows * cols) (fuel : Nat) (hf1 : rows ≤ fuel)
    (hf2 : cols ≤ fuel) :
    (∀ byRow, getPointsOrientation p ⟨cols, rows⟩ = Except.ok (byRow, true) →
      orderChessboardCorners fuel p ⟨cols, rows⟩ = Except.error Err.notSupported) ∧
    (∀ byRow, getPointsOrientation p ⟨cols, rows⟩ = Except.ok (byRow, false) →
      ∃ g, orderChessboardCorners fuel p ⟨cols, rows⟩ = Except.ok g ∧ Shaped g rows cols) := by
  constructor
  · intro byRow hor
    exact order_transposed p ⟨cols, rows⟩ byRow fuel (by simp) (by simp) hor
  · intro byRow hor
    refine ⟨_, order_spec p rows cols byRow hr hc hlen hor fuel hf1 hf2, ?_⟩
    unfold gridOfFn
    refine ⟨by simp, ?_⟩
    intro row hrow
    obtain ⟨r, -, rfl⟩ := List.mem_map.mp hrow
    simp

/-- C6 on the transposed sample: six points, size 2 columns by 3 rows. -/
theorem C6_transposed_rejected_witness :
    getPointsOrientation sampleTransposed ⟨2, 3⟩ = Except.ok (true, true) ∧
    orderChessboardCorners 3 sampleTransposed ⟨2, 3⟩ = Except.error Err.notSupported :=
  ⟨by decide,
    (C6_transposed_rejected 3 2 (by decide) (by decide) sampleTransposed (by decide) 3
      (by decide) (by decide)).1 true (by decide)⟩

/-- C7 as stated fails: on the 5-column, 4-row unit pattern scanned row-major
from the top-left (20 distinct points) the organizer returns a grid `g` whose
extracted quad is not `(g[3][0], g[3][3], g[0][3], g[0][0])`. -/
theorem C7_scenario_counterexample :
    sample54.Nodup ∧
    getPointsOrientation sample54 ⟨5, 4⟩ = Except.ok (true, false) ∧
    ∃ g, orderChessboardCorners 5 sample54 ⟨5, 4⟩ = Except.ok g ∧
      extractCorners g ≠ Except.ok [(g.getD 3 []).getD 0 default, (g.getD 3 []).getD 3 default,
        (g.getD 0 []).getD 3 default, (g.getD 0 []).getD 0 default] := by
  refine ⟨by decide, by decide, gridOfFn 4 5 (physGrid unitAxis unitAxis), by decide, by decide⟩

theorem orientation_leftToRight (rows cols : Nat) (hr : 2 ≤ rows) (hc : 2 ≤ cols)
    (G : Nat → Nat → Point2f) (p : List Point2f) (hp : RowMajorFwd p G rows cols)
    (hx : LeftToRight G rows cols) :
    getPointsOrientation p ⟨cols, rows⟩ = Except.ok (true, false) := by
  unfold getPointsOrientation
  rw [monotonous_true p cols Component.X (by rw [hp.1]; exact cols_lt hr hc) (by omega)]
  left
  intro i hi
  rw [rowMajorFwd_get hp 0 i i (by omega) (by omega) (by simp),
    rowMajorFwd_get hp 0 (i + 1) (i + 1) (by omega) (by omega) (by simp)]
  exact hx 0 i (by omega) hi

theorem order_leftToRight (rows cols : Nat) (hr : 2 ≤ rows) (hc : 2 ≤ cols)
    (G : Nat → Nat → Point2f) (p : List Point2f) (hp : RowMajorFwd p G rows cols)
    (hx : LeftToRight G rows cols) (hy : TopToBottom G rows cols)
    (fuel : Nat) (hf1 : rows ≤ fuel) (hf2 : cols ≤ fuel) :
    orderChessboardCorners fuel p ⟨cols, rows⟩ = Except.ok (gridOfFn rows cols G) := by
  rw [order_spec p rows cols true hr hc hp.1
    (orientation_leftToRight rows cols hr hc G p hp hx) fuel hf1 hf2]
  congr 1
  apply gridOfFn_congr
  intro r c hr' hc'
  have h1 : (G 0 0).y < (G 1 0).y := hy 0 0 (by omega) (by omega)
  have h2 : (G 0 0).x < (G 0 1).x := hx 0 0 (by omega) (by omega)
  simp only [srcIndex, if_true,
    rowMajorFwd_get hp 0 0 0 (by omega) (by omega) (by simp),
    rowMajorFwd_get hp 1 0 cols (by omega) (by omega) (by simp),
    rowMajorFwd_get hp 0 1 1 (by omega) (by omega) (by simp),
    h1, h2, decide_True, mirror]
  exact rowMajorFwd_get hp r c _ hr' hc' rfl

/-- C7 (amended): for a 5-column, 4-row pattern `G` (`Size(5, 4)`) laid out
row-major, top to bottom, left to right, the detector yields `{byRow: true,
transposed: false}`, the organized grid is `G`, and the quad extracted from it
is `(grid[3][0], grid[3][4], grid[0][4], grid[0][0])`. -/
theorem C7_scenario_5x4 (G : Nat → Nat → Point2f) (p : List Point2f)
    (hp : RowMajorFwd p G 4 5) (hx : LeftToRight G 4 5) (hy : TopToBottom G 4 5)
    (fuel : Nat) (hf : 5 ≤ fuel) :
    getPointsOrientation p ⟨5, 4⟩ = Except.ok (true, false) ∧
    orderChessboardCorners fuel p ⟨5, 4⟩ = Except.ok (gridOfFn 4 5 G) ∧
    (orderChessboardCorners fuel p ⟨5, 4⟩ >>= extractCorners) =
      Except.ok [G 3 0, G 3 4, G 0 4, G 0 0] := by
  have hor := orientation_leftToRight 4 5 (by decide) (by decide) G p hp hx
  have hord := order_leftToRight 4 5 (by decide) (by decide) G p hp hx hy fuel (by omega) hf
  refine ⟨hor, hord, ?_⟩
  have hord' : orderChessboardCorners fuel p ⟨5, 4⟩ = Except.ok (gridOfFn 4 5 G) := hord
  rw [hord']
  exact extractCorners_gridOfFn 4 5 _ (by decide) (by decide)

/-- C7 (amended) on the unit pattern, whose 20 points are pairwise distinct. -/
theorem C7_scenario_5x4_witness :
    sample54.Nodup ∧
    RowMajorFwd sample54 (physGrid unitAxis unitAxis) 4 5 ∧
    (orderChessboardCorners 5 sample54 ⟨5, 4⟩ >>= extractCorners) =
      Except.ok [⟨0, 3⟩, ⟨4, 3⟩, ⟨4, 0⟩, ⟨0, 0⟩] :=
  have h : RowMajorFwd sample54 (physGrid unitAxis unitAxis) 4 5 := by
    refine ⟨by decide, ?_⟩
    intro r c hr hc
    interval_cases r <;> interval_cases c <;> decide
  ⟨by decide, h,
    (C7_scenario_5x4 (physGrid unitAxis unitAxis) sample54 h
      (fun r c _ _ => by simp [physGrid, unitAxis])
      (fun r c _ _ => by simp [physGrid, unitAxis]) 5 (by decide)).2.2.trans (by decide)⟩

/-! ## The canvas-safe homography -/

theorem floatToInt_of_range (q : ℚ) (hq : 0 ≤ q) (hlt : q < 2147483648) :
    floatToInt q = ⌊q⌋ := by
  have ht : Int.tdiv q.num q.den = ⌊q⌋ := by
    rw [Int.tdiv_eq_ediv (Rat.num_nonneg.mpr hq) (Int.natCast_nonneg _)]
    exact Rat.floor_def.symm
  have h0 : (0 : Int) ≤ ⌊q⌋ := Int.floor_nonneg.mpr hq
  have h1 : ⌊q⌋ < 2147483648 := Int.floor_lt.mpr (by exact_mod_cast hlt)
  unfold floatToInt
  simp only [ht]
  rw [if_pos ⟨by omega, by omega⟩]

theorem shiftValue_eq (m : ℚ) : (if m < 0 then |m| else 0) = max 0 (-m) := by
  by_cases h : m < 0
  · rw [if_pos h, abs_of_neg h, max_eq_right (by linarith)]
  · rw [if_neg h, max_eq_left (by linarith)]

theorem shift_floor (m : ℚ) (hm : -2147483648 < m) :
    floatToInt (if m < 0 then |m| else 0) = ⌊max 0 (-m)⌋ := by
  rw [shiftValue_eq]
  exact floatToInt_of_range _ (le_max_left _ _) (max_lt (by norm_num) (by linarith))

theorem shift_bound (m x : ℚ) (h : m ≤ x) (hm : -2147483648 < m) :
    -1 < x + ((floatToInt (if m < 0 then |m| else 0) : Int) : ℚ) := by
  rw [shift_floor m hm]
  have h1 : max 0 (-m) < (⌊max 0 (-m)⌋ : ℚ) + 1 := Int.lt_floor_add_one _
  have h2 : -m ≤ max 0 (-m) := le_max_right _ _
  linarith

theorem computeHomography_eq {Mat : Type} (cv : Collaborators Mat) (from' to' : List Point2f)
    (size_from : Size) (c0 c1 c2 c3 : Point2f)
    (hT : cv.perspectiveTransform (extractCornersOfSize size_from)
      (cv.findHomography from' to') = [c0, c1, c2, c3]) :
    computeHomography cv from' to' size_from =
      Except.ok
        { H := cv.findHomography from'
            (addShift
              ⟨floatToInt (if min (min c0.x c1.x) (min c2.x c3.x) < 0
                  then |min (min c0.x c1.x) (min c2.x c3.x)| else 0),
                floatToInt (if min (min c0.y c1.y) (min c2.y c3.y) < 0
                  then |min (min c0.y c1.y) (min c2.y c3.y)| else 0)⟩ to'),
          shift :=
            ⟨floatToInt (if min (min c0.x c1.x) (min c2.x c3.x) < 0
                then |min (min c0.x c1.x) (min c2.x c3.x)| else 0),
              floatToInt (if min (min c0.y c1.y) (min c2.y c3.y) < 0
                then |min (min c0.y c1.y) (min c2.y c3.y)| else 0)⟩,
          imageCorners :=
            addShift
              ⟨floatToInt (if min (min c0.x c1.x) (min c2.x c3.x) < 0
                  then |min (min c0.x c1.x) (min c2.x c3.x)| else 0),
                floatToInt (if min (min c0.y c1.y) (min c2.y c3.y) < 0
                  then |min (min c0.y c1.y) (min c2.y c3.y)| else 0)⟩ [c0, c1, c2, c3] } := by
  unfold computeHomography
  simp only [hT]
  rfl

theorem four_points (L : List Point2f) (h : L.length = 4) :
    ∃ c0 c1 c2 c3, L = [c0, c1, c2, c3] := by
  rcases L with _ | ⟨c0, _ | ⟨c1, _ | ⟨c2, _ | ⟨c3, _ | ⟨c4, t⟩⟩⟩⟩⟩
  all_goals simp at h
  exact ⟨c0, c1, c2, c3, rfl⟩

theorem four_min_gt (a b c d t : ℚ) (ha : t < a) (hb : t < b) (hc : t < c) (hd : t < d) :
    t < min (min a b) (min c d) :=
  lt_min (lt_min ha hb) (lt_min hc hd)

theorem hugeCv_run :
    ∃ out, computeHomography hugeCv [] [] ⟨4, 3⟩ = Except.ok out ∧
      out.shift = ⟨-2147483648, 0⟩ ∧
      out.imageCorners = addShift out.shift [⟨-2147483648, 0⟩, ⟨0, 0⟩, ⟨0, 1⟩, ⟨1, 1⟩] :=
  ⟨_, rfl, by decide, rfl⟩

/-- C8 as stated fails: when the point transform sends a canvas corner to
`x = -2^31`, the corner returned has `x <= -1`; the shift is a 32-bit `int`, and
no such value added to `-2^31` gives more than `-1`. -/
theorem C8_canvas_counterexample :
    (hugeCv.perspectiveTransform (extractCornersOfSize ⟨4, 3⟩)
      (hugeCv.findHomography [] [])).length = 4 ∧
    (∃ out, ∃ P : Point2f, computeHomography hugeCv [] [] ⟨4, 3⟩ = Except.ok out ∧
      out.imageCorners[0]? = some P ∧ P.x ≤ (-1 : ℚ)) ∧
    ∀ s : Int, s ≤ 2147483647 → ¬ ((-1 : ℚ) < (-2147483648 : ℚ) + (s : ℚ)) := by
  refine ⟨by decide, ?_, ?_⟩
  · obtain ⟨out, h1, h2, h3⟩ := hugeCv_run
    refine ⟨out, ⟨-2147483648 + ((out.shift.width : Int) : ℚ),
      0 + ((out.shift.height : Int) : ℚ)⟩, h1, by rw [h3]; rfl, ?_⟩
    rw [h2]
    norm_num
  · intro s hs h
    have hs' : (s : ℚ) ≤ 2147483647 := by exact_mod_cast hs
    linarith

/-- C8 (amended): for every `from`, `to` and source canvas size and every
behaviour of the fit and point-transform collaborators for which the four
transformed canvas corners have `x > -2^31` and `y > -2^31` (so that the shift
fits the 32-bit `int` of `cv::Size`), `computeHomography` returns four image
corners, and each of them has `x > -1` and `y > -1`. -/
theorem C8_canvas_corners_above_minus_one {Mat : Type} (cv : Collaborators Mat)
    (from' to' : List Point2f) (size_from : Size)
    (h4 : (cv.perspectiveTransform (extractCornersOfSize size_from)
      (cv.findHomography from' to')).length = 4)
    (hrange : ∀ P ∈ cv.perspectiveTransform (extractCornersOfSize size_from)
      (cv.findHomography from' to'), -2147483648 < P.x ∧ -2147483648 < P.y) :
    ∃ out, computeHomography cv from' to' size_from = Except.ok out ∧
      out.imageCorners.length = 4 ∧
      ∀ P ∈ out.imageCorners, -1 < P.x ∧ -1 < P.y := by
  obtain ⟨c0, c1, c2, c3, hT⟩ := four_points _ h4
  rw [hT] at hrange
  have r0 := hrange c0 (by simp)
  have r1 := hrange c1 (by simp)
  have r2 := hrange c2 (by simp)
  have r3 := hrange c3 (by simp)
  have hx := four_min_gt c0.x c1.x c2.x c3.x _ r0.1 r1.1 r2.1 r3.1
  have hy := four_min_gt c0.y c1.y c2.y c3.y _ r0.2 r1.2 r2.2 r3.2
  refine ⟨_, computeHomography_eq cv from' to' size_from c0 c1 c2 c3 hT, rfl, ?_⟩
  intro P hP
  simp only [addShift, List.map_cons, List.map_nil, List.mem_cons, List.mem_singleton,
    List.not_mem_nil, or_false] at hP
  rcases hP with rfl | rfl | rfl | rfl
  · exact ⟨shift_bound _ _ (le_trans (min_le_left _ _) (min_le_left _ _)) hx,
      shift_bound _ _ (le_trans (min_le_left _ _) (min_le_left _ _)) hy⟩
  · exact ⟨shift_bound _ _ (le_trans (min_le_left _ _) (min_le_right _ _)) hx,
      shift_bound _ _ (le_trans (min_le_left _ _) (min_le_right _ _)) hy⟩
  · exact ⟨shift_bound _ _ (le_trans (min_le_right _ _) (min_le_left _ _)) hx,
      shift_bound _ _ (le_trans (min_le_right _ _) (min_le_left _ _)) hy⟩
  · exact ⟨shift_bound _ _ (le_trans (min_le_right _ _) (min_le_right _ _)) hx,
      shift_bound _ _ (le_trans (min_le_right _ _) (min_le_right _ _)) hy⟩

/-- C8 (amended) with the stand-in collaborators, whose transformed canvas
reaches `x = -1/2` and `y = -7/3`. -/
theorem C8_canvas_corners_above_minus_one_witness :
    ∃ out, computeHomography sampleCv [] [] ⟨4, 3⟩ = Except.ok out ∧
      out.imageCorners.length = 4 ∧
      ∀ P ∈ out.imageCorners, -1 < P.x ∧ -1 < P.y :=
  C8_canvas_corners_above_minus_one sampleCv [] [] ⟨4, 3⟩ (by decide) (by decide)

/-- C9 as stated fails: with the stand-in collaborators the transformed canvas
corners have `minX = -1/2`, and the shift returned has width 0, which is not
`max(0, -minX) = 1/2`. -/
theorem C9_shift_counterexample :
    ∃ ci out,
      corners_info_t.ctor (sampleCv.perspectiveTransform (extractCornersOfSize ⟨4, 3⟩)
        (sampleCv.findHomography [] [])) = Except.ok ci ∧
      computeHomography sampleCv [] [] ⟨4, 3⟩ = Except.ok out ∧
      ci.minX = mkRat (-1) 2 ∧ out.shift.width = 0 ∧
      ((out.shift.width : Int) : ℚ) ≠ max 0 (-ci.minX) := by
  refine ⟨_, _, rfl, rfl, by decide, by decide, by decide⟩

/-- C9 (amended): when the least `x` and the least `y` of the four canvas
corners mapped through the preliminary transform, `minX` and `minY`, are above
`-2^31` (so that the values fit the 32-bit `int` of `cv::Size`), the shift
computed by `computeHomography` is the integer part of `(max(0, -minX),
max(0, -minY))`, that is `(floor(max(0, -minX)), floor(max(0, -minY)))`. -/
theorem C9_shift_is_integer_part {Mat : Type} (cv : Collaborators Mat)
    (from' to' : List Point2f) (size_from : Size) (c0 c1 c2 c3 : Point2f)
    (hT : cv.perspectiveTransform (extractCornersOfSize size_from)
      (cv.findHomography from' to') = [c0, c1, c2, c3])
    (hx : -2147483648 < min (min c0.x c1.x) (min c2.x c3.x))
    (hy : -2147483648 < min (min c0.y c1.y) (min c2.y c3.y)) :
    ∃ out, computeHomography cv from' to' size_from = Except.ok out ∧
      out.shift.width = ⌊max 0 (-(min (min c0.x c1.x) (min c2.x c3.x)))⌋ ∧
      out.shift.height = ⌊max 0 (-(min (min c0.y c1.y) (min c2.y c3.y)))⌋ :=
  ⟨_, computeHomography_eq cv from' to' size_from c0 c1 c2 c3 hT, shift_floor _ hx,
    shift_floor _ hy⟩

/-- C9 (amended) with the stand-in collaborators: the shift is `(0, 2)`. -/
theorem C9_shift_is_integer_part_witness :
    ∃ out, computeHomography sampleCv [] [] ⟨4, 3⟩ = Except.ok out ∧
      out.shift = ⟨0, 2⟩ ∧
      out.shift.width = ⌊max 0 (-(min (min (mkRat (-1) 2) 4) (min (4 : ℚ) 0)))⌋ ∧
      out.shift.height = ⌊max 0 (-(min (min (mkRat 5 2) 3) (min (mkRat (-7) 3) 0)))⌋ := by
  obtain ⟨out, h1, h2, h3⟩ := C9_shift_is_integer_part sampleCv [] [] ⟨4, 3⟩
    ⟨mkRat (-1) 2, mkRat 5 2⟩ ⟨4, 3⟩ ⟨4, mkRat (-7) 3⟩ ⟨0, 0⟩ rfl (by decide) (by decide)
  have h : ∃ o, computeHomography sampleCv [] [] ⟨4, 3⟩ = Except.ok o ∧ o.shift = ⟨0, 2⟩ :=
    ⟨_, rfl, by decide⟩
  obtain ⟨o, e1, e2⟩ := h
  rw [h1] at e1
  cases e1
  exact ⟨out, h1, e2, h2, h3⟩

theorem computeHomography_out {Mat : Type} (cv : Collaborators Mat)
    (from' to' : List Point2f) (size_from : Size) (hom : HomographyOut Mat)
    (h : computeHomography cv from' to' size_from = Except.ok hom) :
    hom.H = cv.findHomography from' (addShift hom.shift to') ∧
    hom.imageCorners = addShift hom.shift
      (cv.perspectiveTransform (extractCornersOfSize size_from)
        (cv.findHomography from' to')) := by
  unfold computeHomography at h
  simp only at h
  split at h
  · cases h
  · cases h
    exact ⟨rfl, rfl⟩

/-- C10: whenever `projectToTheFloor` succeeds, with `(dx, dy)` the shift that
`computeHomography` returned: the pattern quad it returns (`chessboardCorners`)
is, point for point, the synthesized target rectangle with `dx` added to every
`x` and `dy` to every `y`; the final homography, the one used for the warp, is
the fit from the source points to exactly that quad; and the returned image
corners are the transformed canvas corners with the same `dx` and `dy` added. -/
theorem C10_pattern_quad_shifted {Mat : Type} (cv : Collaborators Mat) (fuel : Nat)
    (image : Mat) (chessboardSize : Size) (out0 out : FloorOut Mat)
    (h : projectToTheFloor cv fuel image chessboardSize out0 = Except.ok (true, out)) :
    ∃ g blp blpn quad hom temp, ∃ sq dx dy : ℚ, ∃ target : List Point2f,
      orderChessboardCorners fuel (findChessboardCorners cv image chessboardSize).2
        chessboardSize = Except.ok g ∧
      getTwoBottomLeftPoints g = Except.ok (blp, blpn) ∧
      extractCorners g = Except.ok quad ∧
      sq = cv.norm ⟨blp.x - blpn.x, blp.y - blpn.y⟩ ∧
      target =
        [⟨blp.x, blp.y⟩,
         ⟨blp.x + sq * (chessboardSize.width - 1), blp.y⟩,
         ⟨blp.x + sq * (chessboardSize.width - 1), blp.y - sq * (chessboardSize.height - 1)⟩,
         ⟨blp.x, blp.y - sq * (chessboardSize.height - 1)⟩] ∧
      temp = drawQuad cv (drawQuad cv image target (255, 0, 0)) quad (0, 0, 255) ∧
      computeHomography cv quad target (cv.sizeOf temp) = Except.ok hom ∧
      dx = hom.shift.width ∧ dy = hom.shift.height ∧
      out.chessboardCorners =
        [⟨blp.x + dx, blp.y + dy⟩,
         ⟨blp.x + sq * (chessboardSize.width - 1) + dx, blp.y + dy⟩,
         ⟨blp.x + sq * (chessboardSize.width - 1) + dx,
           blp.y - sq * (chessboardSize.height - 1) + dy⟩,
         ⟨blp.x + dx, blp.y - sq * (chessboardSize.height - 1) + dy⟩] ∧
      hom.H = cv.findHomography quad out.chessboardCorners ∧
      out.imageCorners =
        (cv.perspectiveTransform
          [⟨0, (cv.sizeOf temp).height⟩, ⟨(cv.sizeOf temp).width, (cv.sizeOf temp).height⟩,
            ⟨(cv.sizeOf temp).width, 0⟩, ⟨0, 0⟩]
          (cv.findHomography quad target)).map (fun P => ⟨P.x + dx, P.y + dy⟩) ∧
      ∃ size, out.result = cv.warpPerspective temp hom.H size := by
  unfold projectToTheFloor at h
  simp only at h
  split at h
  · cases h
  · split at h
    · cases h
    · rename_i g hg
      split at h
      · cases h
      · rename_i twoPoints h2
        split at h
        · cases h
        · rename_i quad hq
          split at h
          · cases h
          · rename_i hom hhom
            split at h
            · cases h
            · rename_i ic hic
              cases h
              obtain ⟨hH, hI⟩ := computeHomography_out cv _ _ _ hom hhom
              exact ⟨g, twoPoints.1, twoPoints.2, quad, hom, _, _, _, _, _, hg, h2, hq, rfl,
                rfl, rfl, hhom, rfl, rfl, rfl, hH, hI, _, rfl⟩

theorem sampleCv_shift (a b : List Point2f) (sz : Size) :
    ∃ o, computeHomography sampleCv a b sz = Except.ok o ∧ o.shift = ⟨0, 2⟩ :=
  ⟨_, computeHomography_eq sampleCv a b sz ⟨mkRat (-1) 2, mkRat 5 2⟩ ⟨4, 3⟩
      ⟨4, mkRat (-7) 3⟩ ⟨0, 0⟩ rfl, by
    show Size.mk _ _ = _
    decide⟩

/-- C10 with the stand-in collaborators on a 3-column, 2-row size: the target
rectangle is `(0,1), (2,1), (2,0), (0,0)`, the shift is `(0, 2)`, the returned
pattern quad is `(0,3), (2,3), (2,2), (0,2)` and the returned image corners are
the transformed corners `(-1/2, 5/2), (4, 3), (4, -7/3), (0, 0)` moved by (0, 2). -/
theorem C10_pattern_quad_shifted_witness :
    ∃ out, projectToTheFloor sampleCv 3 () ⟨3, 2⟩ ⟨(), [], [], []⟩ = Except.ok (true, out) ∧
      out.chessboardCorners = [⟨0, 3⟩, ⟨2, 3⟩, ⟨2, 2⟩, ⟨0, 2⟩] ∧
      out.imageCorners = [⟨-1 / 2, 9 / 2⟩, ⟨4, 5⟩, ⟨4, -1 / 3⟩, ⟨0, 2⟩] := by
  obtain ⟨out, hrun⟩ : ∃ out, projectToTheFloor sampleCv 3 () ⟨3, 2⟩ ⟨(), [], [], []⟩
      = Except.ok (true, out) := ⟨_, rfl⟩
  obtain ⟨g, blp, blpn, quad, hom, temp, sq, dx, dy, target, hg, h2, hq, hsq, ht, -, hhom,
    hdx, hdy, hcc, -, hic, -⟩ :=
    C10_pattern_quad_shifted sampleCv 3 () ⟨3, 2⟩ ⟨(), [], [], []⟩ out hrun
  have hg' : orderChessboardCorners 3 (findChessboardCorners sampleCv () ⟨3, 2⟩).2 ⟨3, 2⟩
      = Except.ok [[⟨0, 0⟩, ⟨1, 0⟩, ⟨2, 0⟩], [⟨0, 1⟩, ⟨1, 1⟩, ⟨2, 1⟩]] := by decide
  rw [hg'] at hg
  cases hg
  have h2' : getTwoBottomLeftPoints [[⟨0, 0⟩, ⟨1, 0⟩, ⟨2, 0⟩], [⟨0, 1⟩, ⟨1, 1⟩, ⟨2, 1⟩]]
      = Except.ok (⟨0, 1⟩, ⟨1, 1⟩) := by decide
  rw [h2'] at h2
  cases h2
  have hs : ∃ o, computeHomography sampleCv quad target (sampleCv.sizeOf temp) = Except.ok o ∧
      o.shift = ⟨0, 2⟩ := sampleCv_shift quad target (sampleCv.sizeOf temp)
  obtain ⟨o, e1, e2⟩ := hs
  rw [hhom] at e1
  cases e1
  rw [e2] at hdx hdy
  have hsq' : sq = 1 := by rw [hsq]; norm_num [sampleCv]
  refine ⟨out, hrun, ?_, ?_⟩
  · rw [hcc, hdx, hdy, hsq']
    norm_num
  · rw [hic, hdx, hdy]
    norm_num [sampleCv, Rat.mkRat_eq_div]

/-! ## The floor projector -/

theorem projectToTheFloor_notFound {Mat : Type} (cv : Collaborators Mat) (fuel : Nat)
    (image : Mat) (chessboardSize : Size) (out0 : FloorOut Mat)
    (h : (cv.cvFindChessboardCorners image chessboardSize).1 = false) :
    projectToTheFloor cv fuel image chessboardSize out0 = Except.ok (false, out0) := by
  unfold projectToTheFloor findChessboardCorners
  simp [h]

/-- C11: when the external detector reports not-found, `projectToTheFloor`
returns `false` and leaves its four output parameters as they were, and it does
so whatever the homography fit, the point transform and the warp are (also for
every loop budget): none of them is consulted. -/
theorem C11_not_found_fails_fast {Mat : Type} (cv : Collaborators Mat) (fuel : Nat)
    (image : Mat) (chessboardSize : Size) (out0 : FloorOut Mat)
    (h : (cv.cvFindChessboardCorners image chessboardSize).1 = false) :
    projectToTheFloor cv fuel image chessboardSize out0 = Except.ok (false, out0) ∧
    ∀ (fit : List Point2f → List Point2f → Mat)
      (transform : List Point2f → Mat → List Point2f) (warp : Mat → Mat → Size → Mat)
      (fuel' : Nat),
      projectToTheFloor
        { cv with findHomography := fit, perspectiveTransform := transform,
                  warpPerspective := warp } fuel' image chessboardSize out0
        = Except.ok (false, out0) :=
  ⟨projectToTheFloor_notFound cv fuel image chessboardSize out0 h,
    fun _ _ _ fuel' => projectToTheFloor_notFound _ fuel' image chessboardSize out0 h⟩

/-- C11 with a detector that finds nothing: the outputs handed in come back. -/
theorem C11_not_found_fails_fast_witness :
    projectToTheFloor sampleCvNotFound 0 () ⟨3, 2⟩ ⟨(), [⟨1, 2⟩], [⟨3, 4⟩], [⟨5, 6⟩]⟩
      = Except.ok (false, ⟨(), [⟨1, 2⟩], [⟨3, 4⟩], [⟨5, 6⟩]⟩) :=
  (C11_not_found_fails_fast sampleCvNotFound 0 () ⟨3, 2⟩ ⟨(), [⟨1, 2⟩], [⟨3, 4⟩], [⟨5, 6⟩]⟩
    rfl).1

/-- C12 as stated fails: with stand-ins whose fit answers its source points
and whose warp answers its matrix, the image returned for the 3-column, 2-row
sample is the pattern quad `(0,1), (2,1), (2,0), (0,0)`, not the four corners
`(0,3), (4,3), (4,0), (0,0)` of the 4 x 3 image. -/
theorem C12_from_counterexample :
    ∃ out, projectToTheFloor recordCv 3 [] ⟨3, 2⟩ ⟨[], [], [], []⟩ = Except.ok (true, out) ∧
      out.result = [⟨0, 1⟩, ⟨2, 1⟩, ⟨2, 0⟩, ⟨0, 0⟩] ∧
      extractCornersOfSize (recordCv.sizeOf []) = [⟨0, 3⟩, ⟨4, 3⟩, ⟨4, 0⟩, ⟨0, 0⟩] ∧
      out.result ≠ extractCornersOfSize (recordCv.sizeOf []) := by
  refine ⟨_, rfl, by decide, by decide, by decide⟩

/-- C12 (amended): whenever `projectToTheFloor` succeeds, its outputs are those
of `computeHomography(from = the pattern quad extractCorners(ordered grid),
to = the target rectangle, size_from = the size of the working copy of the
image)`; the quad is also what `chessboardCornersOrig` receives. -/
theorem C12_from_is_pattern_quad {Mat : Type} (cv : Collaborators Mat) (fuel : Nat)
    (image : Mat) (chessboardSize : Size) (out0 out : FloorOut Mat)
    (h : projectToTheFloor cv fuel image chessboardSize out0 = Except.ok (true, out)) :
    ∃ g blp blpn quad hom ic,
      orderChessboardCorners fuel (findChessboardCorners cv image chessboardSize).2
        chessboardSize = Except.ok g ∧
      getTwoBottomLeftPoints g = Except.ok (blp, blpn) ∧
      extractCorners g = Except.ok quad ∧
      computeHomography cv quad
        (targetRectangle blp (cv.norm ⟨blp.x - blpn.x, blp.y - blpn.y⟩) chessboardSize)
        (cv.sizeOf (drawQuad cv
          (drawQuad cv image
            (targetRectangle blp (cv.norm ⟨blp.x - blpn.x, blp.y - blpn.y⟩) chessboardSize)
            (255, 0, 0)) quad (0, 0, 255))) = Except.ok hom ∧
      corners_info_t.ctor hom.imageCorners = Except.ok ic ∧
      out =
        { result := cv.warpPerspective
            (drawQuad cv
              (drawQuad cv image
                (targetRectangle blp (cv.norm ⟨blp.x - blpn.x, blp.y - blpn.y⟩)
                  chessboardSize) (255, 0, 0)) quad (0, 0, 255))
            hom.H ⟨floatToInt ic.width, floatToInt ic.height⟩,
          chessboardCornersOrig := quad,
          chessboardCorners := addShift hom.shift
            (targetRectangle blp (cv.norm ⟨blp.x - blpn.x, blp.y - blpn.y⟩) chessboardSize),
          imageCorners := hom.imageCorners } := by
  unfold projectToTheFloor at h
  simp only at h
  split at h
  · cases h
  · split at h
    · cases h
    · rename_i g hg
      split at h
      · cases h
      · rename_i twoPoints h2
        split at h
        · cases h
        · rename_i quad hq
          split at h
          · cases h
          · rename_i hom hhom
            split at h
            · cases h
            · rename_i ic hic
              cases h
              exact ⟨g, twoPoints.1, twoPoints.2, quad, hom, ic, hg, h2, hq, hhom, hic, rfl⟩

/-- C12 (amended) with the recording stand-ins, where the run succeeds. -/
theorem C12_from_is_pattern_quad_witness :
    ∃ out, projectToTheFloor recordCv 3 [] ⟨3, 2⟩ ⟨[], [], [], []⟩ = Except.ok (true, out) ∧
      out.chessboardCornersOrig = [⟨0, 1⟩, ⟨2, 1⟩, ⟨2, 0⟩, ⟨0, 0⟩] ∧
      ∃ g blp blpn quad hom ic,
        orderChessboardCorners 3 (findChessboardCorners recordCv [] ⟨3, 2⟩).2 ⟨3, 2⟩
          = Except.ok g ∧
        getTwoBottomLeftPoints g = Except.ok (blp, blpn) ∧
        extractCorners g = Except.ok quad ∧
        computeHomography recordCv quad
          (targetRectangle blp (recordCv.norm ⟨blp.x - blpn.x, blp.y - blpn.y⟩) ⟨3, 2⟩)
          (recordCv.sizeOf (drawQuad recordCv
            (drawQuad recordCv []
              (targetRectangle blp (recordCv.norm ⟨blp.x - blpn.x, blp.y - blpn.y⟩) ⟨3, 2⟩)
              (255, 0, 0)) quad (0, 0, 255))) = Except.ok hom ∧
        corners_info_t.ctor hom.imageCorners = Except.ok ic ∧
        out =
          { result := recordCv.warpPerspective
              (drawQuad recordCv
                (drawQuad recordCv []
                  (targetRectangle blp (recordCv.norm ⟨blp.x - blpn.x, blp.y - blpn.y⟩)
                    ⟨3, 2⟩) (255, 0, 0)) quad (0, 0, 255))
              hom.H ⟨floatToInt ic.width, floatToInt ic.height⟩,
            chessboardCornersOrig := quad,
            chessboardCorners := addShift hom.shift
              (targetRectangle blp (recordCv.norm ⟨blp.x - blpn.x, blp.y - blpn.y⟩) ⟨3, 2⟩),
            imageCorners := hom.imageCorners } :=
  ⟨_, rfl, by decide,
    C12_from_is_pattern_quad recordCv 3 [] ⟨3, 2⟩ ⟨[], [], [], []⟩ _ rfl⟩

/-! ## Re-indexing -/

theorem mirror_inj (fwd : Bool) (n k k' : Nat) (hk : k < n) (hk' : k' < n)
    (h : mirror fwd n k = mirror fwd n k') : k = k' := by
  unfold mirror at h
  split at h <;> omega

theorem mirror_mirror (fwd : Bool) (n k : Nat) (hk : k < n) :
    mirror fwd n (mirror fwd n k) = k := by
  unfold mirror
  split <;> omega

theorem flat_inj (a b a' b' K : Nat) (hb : b < K) (hb' : b' < K)
    (h : a * K + b = a' * K + b') : a = a' ∧ b = b' := by
  have hK : 0 < K := by omega
  have h1 : (a * K + b) / K = a := by
    rw [Nat.add_comm, Nat.add_mul_div_right _ _ hK, Nat.div_eq_of_lt hb, Nat.zero_add]
  have h2 : (a' * K + b') / K = a' := by
    rw [Nat.add_comm, Nat.add_mul_div_right _ _ hK, Nat.div_eq_of_lt hb', Nat.zero_add]
  have ha : a = a' := by rw [← h1, ← h2, h]
  subst ha
  exact ⟨rfl, by omega⟩

theorem flat_surj (k R K : Nat) (hk : k < R * K) :
    ∃ a b, a < R ∧ b < K ∧ a * K + b = k := by
  have hK : 0 < K := by
    rcases Nat.eq_zero_or_pos K with h | h
    · subst h; simp at hk
    · exact h
  refine ⟨k / K, k % K, ?_, Nat.mod_lt _ hK, ?_⟩
  · exact (Nat.div_lt_iff_lt_mul hK).mpr hk
  · rw [Nat.mul_comm]; exact Nat.div_add_mod k K

theorem srcIndex_lt (p : List Point2f) (rows cols : Nat) (byRow : Bool) (r c : Nat)
    (hr : r < rows) (hc : c < cols) : srcIndex p rows cols byRow r c < rows * cols := by
  unfold srcIndex
  split
  · exact flat_lt _ _ _ _ (mirror_lt _ _ _ hr) (mirror_lt _ _ _ hc)
  · rw [Nat.mul_comm rows cols]
    exact flat_lt _ _ _ _ (mirror_lt _ _ _ hc) (mirror_lt _ _ _ hr)

theorem srcIndex_inj (p : List Point2f) (rows cols : Nat) (byRow : Bool) (r c r' c' : Nat)
    (hr : r < rows) (hc : c < cols) (hr' : r' < rows) (hc' : c' < cols)
    (h : srcIndex p rows cols byRow r c = srcIndex p rows cols byRow r' c') :
    r = r' ∧ c = c' := by
  unfold srcIndex at h
  split at h
  · obtain ⟨h1, h2⟩ := flat_inj _ _ _ _ _ (mirror_lt _ _ _ hc) (mirror_lt _ _ _ hc') h
    exact ⟨mirror_inj _ _ _ _ hr hr' h1, mirror_inj _ _ _ _ hc hc' h2⟩
  · obtain ⟨h1, h2⟩ := flat_inj _ _ _ _ _ (mirror_lt _ _ _ hr) (mirror_lt _ _ _ hr') h
    exact ⟨mirror_inj _ _ _ _ hr hr' h2, mirror_inj _ _ _ _ hc hc' h1⟩

theorem mirrored_surj (f1 f2 : Bool) (k R K : Nat) (hk : k < R * K) :
    ∃ a b, a < R ∧ b < K ∧ mirror f1 R a * K + mirror f2 K b = k := by
  obtain ⟨a, b, ha, hb, hab⟩ := flat_surj k R K hk
  refine ⟨mirror f1 R a, mirror f2 K b, mirror_lt _ _ _ ha, mirror_lt _ _ _ hb, ?_⟩
  rw [mirror_mirror _ _ _ ha, mirror_mirror _ _ _ hb]
  exact hab

theorem srcIndex_surj (p : List Point2f) (rows cols : Nat) (byRow : Bool) (k : Nat)
    (hk : k < rows * cols) :
    ∃ r c, r < rows ∧ c < cols ∧ srcIndex p rows cols byRow r c = k := by
  unfold srcIndex
  split
  · exact mirrored_surj _ _ k rows cols hk
  · rw [Nat.mul_comm rows cols] at hk
    obtain ⟨a, b, ha, hb, hab⟩ := mirrored_surj
      (decide ((p.getD 0 default).x < (p.getD rows default).x))
      (decide ((p.getD 0 default).y < (p.getD 1 default).y)) k cols rows hk
    exact ⟨b, a, hb, ha, hab⟩

theorem cellIs_gridOfFn (R K : Nat) (F : Nat → Nat → Point2f) (r c : Nat) (hr : r < R)
    (hc : c < K) : cellIs (gridOfFn R K F) r c (F r c) := by
  unfold cellIs gridOfFn
  refine ⟨(List.range K).map (F r), ?_, ?_⟩
  · simp [List.getElem?_range hr]
  · simp [List.getElem?_range hc]

theorem shaped_gridOfFn (R K : Nat) (F : Nat → Nat → Point2f) :
    Shaped (gridOfFn R K F) R K := by
  unfold gridOfFn
  refine ⟨by simp, ?_⟩
  intro row hrow
  obtain ⟨r, -, rfl⟩ := List.mem_map.mp hrow
  simp

theorem idx_perm (R K : Nat) (idx : Nat → Nat → Nat)
    (hlt : ∀ r c, r < R → c < K → idx r c < R * K)
    (hinj : ∀ r c r' c', r < R → c < K → r' < R → c' < K →
      idx r c = idx r' c' → r = r' ∧ c = c')
    (hsurj : ∀ k, k < R * K → ∃ r c, r < R ∧ c < K ∧ idx r c = k) :
    ((List.range R).flatMap (fun r => (List.range K).map (idx r))).Perm
      (List.range (R * K)) := by
  have hnodup : ((List.range R).flatMap (fun r => (List.range K).map (idx r))).Nodup := by
    rw [List.nodup_flatMap]
    constructor
    · intro r hr
      apply List.Nodup.map_on _ (List.nodup_range K)
      intro c hc c' hc' h
      exact (hinj r c r c' (List.mem_range.mp hr) (List.mem_range.mp hc) (List.mem_range.mp hr)
        (List.mem_range.mp hc') h).2
    · apply List.Nodup.pairwise_of_forall_ne (List.nodup_range R)
      intro r hr r' hr' hne
      intro k hk hk'
      obtain ⟨c, hc, rfl⟩ := List.mem_map.mp hk
      obtain ⟨c', hc', h⟩ := List.mem_map.mp hk'
      exact hne (hinj r c r' c' (List.mem_range.mp hr) (List.mem_range.mp hc)
        (List.mem_range.mp hr') (List.mem_range.mp hc') h.symm).1
  rw [List.perm_ext_iff_of_nodup hnodup (List.nodup_range _)]
  intro k
  simp only [List.mem_flatMap, List.mem_map, List.mem_range]
  constructor
  · rintro ⟨r, hr, c, hc, rfl⟩
    exact hlt r c hr hc
  · intro hk
    obtain ⟨r, c, hr, hc, h⟩ := hsurj k hk
    exact ⟨r, hr, c, hc, h⟩

theorem map_getD_range {α : Type} (p : List α) (d : α) :
    (List.range p.length).map (fun k => p.getD k d) = p := by
  apply List.ext_getElem
  · simp
  · intro n h1 h2
    simp [List.getElem?_eq_getElem h2]

theorem gridOfFn_flatten_perm (p : List Point2f) (R K : Nat) (idx : Nat → Nat → Nat)
    (hlen : p.length = R * K)
    (hlt : ∀ r c, r < R → c < K → idx r c < R * K)
    (hinj : ∀ r c r' c', r < R → c < K → r' < R → c' < K →
      idx r c = idx r' c' → r = r' ∧ c = c')
    (hsurj : ∀ k, k < R * K → ∃ r c, r < R ∧ c < K ∧ idx r c = k) :
    (gridOfFn R K (fun r c => p.getD (idx r c) default)).flatten.Perm p := by
  have hL : (gridOfFn R K (fun r c => p.getD (idx r c) default)).flatten =
      ((List.range R).flatMap (fun r => (List.range K).map (idx r))).map
        (fun k => p.getD k default) := by
    rw [List.map_flatMap]
    simp only [List.map_map]
    rfl
  rw [hL]
  have h := List.Perm.map (fun k => p.getD k default) (idx_perm R K idx hlt hinj hsurj)
  rw [← hlen, map_getD_range] at h
  exact h

/-- C13: for rows, cols >= 2 and any list of `rows * cols` points on which the
detector answers a non-transposed orientation, `orderChessboardCorners` returns
a grid of exactly `rows` rows of exactly `cols` entries, and there is a
bijection `idx` between the cells `(r, c)` and the flat indices `k < rows * cols`
with `result[r][c] = p[idx r c]`: every cell holds a point of `p`, no point is
used twice and none is left out, so the cells read row by row are a
permutation of `p`. -/
theorem C13_reindexing_bijection (rows cols : Nat) (hr : 2 ≤ rows) (hc : 2 ≤ cols)
    (p : List Point2f) (hlen : p.length = rows * cols) (byRow : Bool)
    (hor : getPointsOrientation p ⟨cols, rows⟩ = Except.ok (byRow, false))
    (fuel : Nat) (hf1 : rows ≤ fuel) (hf2 : cols ≤ fuel) :
    ∃ g, orderChessboardCorners fuel p ⟨cols, rows⟩ = Except.ok g ∧
      g.length = rows ∧ (∀ row ∈ g, row.length = cols) ∧
      g.flatten.Perm p ∧
      ∃ idx : Nat → Nat → Nat,
        (∀ r c, r < rows → c < cols →
          idx r c < rows * cols ∧ ∃ v, p[idx r c]? = some v ∧ cellIs g r c v) ∧
        (∀ r c r' c', r < rows → c < cols → r' < rows → c' < cols →
          idx r c = idx r' c' → r = r' ∧ c = c') ∧
        (∀ k, k < rows * cols → ∃ r c, r < rows ∧ c < cols ∧ idx r c = k) := by
  refine ⟨_, order_spec p rows cols byRow hr hc hlen hor fuel hf1 hf2,
    (shaped_gridOfFn _ _ _).1, (shaped_gridOfFn _ _ _).2, ?_,
    srcIndex p rows cols byRow, ?_, ?_, ?_⟩
  · exact gridOfFn_flatten_perm p rows cols (srcIndex p rows cols byRow) hlen
      (fun r c h1 h2 => srcIndex_lt p rows cols byRow r c h1 h2)
      (fun r c r' c' h1 h2 h3 h4 h => srcIndex_inj p rows cols byRow r c r' c' h1 h2 h3 h4 h)
      (fun k hk => srcIndex_surj p rows cols byRow k hk)
  · intro r c hr' hc'
    have hlt := srcIndex_lt p rows cols byRow r c hr' hc'
    refine ⟨hlt, p.getD (srcIndex p rows cols byRow r c) default, ?_, ?_⟩
    · have hlt' : srcIndex p rows cols byRow r c < p.length := by omega
      simp [List.getElem?_eq_getElem hlt']
    · exact cellIs_gridOfFn rows cols _ r c hr' hc'
  · intro r c r' c' h1 h2 h3 h4 h
    exact srcIndex_inj p rows cols byRow r c r' c' h1 h2 h3 h4 h
  · intro k hk
    exact srcIndex_surj p rows cols byRow k hk

/-- C13 on the column-major reversed sample (2 rows, 3 columns). -/
theorem C13_reindexing_bijection_witness :
    getPointsOrientation sampleColRev ⟨3, 2⟩ = Except.ok (false, false) ∧
    ∃ g, orderChessboardCorners 3 sampleColRev ⟨3, 2⟩ = Except.ok g ∧
      g.length = 2 ∧ (∀ row ∈ g, row.length = 3) ∧
      g.flatten.Perm sampleColRev ∧
      ∃ idx : Nat → Nat → Nat,
        (∀ r c, r < 2 → c < 3 →
          idx r c < 2 * 3 ∧ ∃ v, sampleColRev[idx r c]? = some v ∧ cellIs g r c v) ∧
        (∀ r c r' c', r < 2 → c < 3 → r' < 2 → c' < 3 →
          idx r c = idx r' c' → r = r' ∧ c = c') ∧
        (∀ k, k < 2 * 3 → ∃ r c, r < 2 ∧ c < 3 ∧ idx r c = k) :=
  ⟨by decide,
    C13_reindexing_bijection 2 3 (by decide) (by decide) sampleColRev (by decide) false
      (by decide) 3 (by decide) (by decide)⟩

/-! ## Index safety and termination -/

theorem orientation_error (p : List Point2f) (bs : Size) (hw : 0 ≤ bs.width)
    (hh : 0 ≤ bs.height) (hwl : bs.width < p.length) (hhl : bs.height < p.length) (e : Err)
    (h : getPointsOrientation p bs = Except.error e) : e = Err.unexpectedOrder := by
  obtain ⟨b1, e1⟩ := monotonous_total p bs.width Component.X hw hwl
  obtain ⟨b2, e2⟩ := monotonous_total p bs.height Component.Y hh hhl
  obtain ⟨b3, e3⟩ := monotonous_total p bs.width Component.Y hw hwl
  obtain ⟨b4, e4⟩ := monotonous_total p bs.height Component.X hh hhl
  unfold getPointsOrientation at h
  rw [e1, e2, e3, e4] at h
  cases b1 <;> cases b2 <;> cases b3 <;> cases b4 <;> simp at h
  exact h.symm

theorem getSteps_orientation (p : List Point2f) (bs : Size) (byRow : Bool)
    (iloop jloop : loop_control) (h : getSteps p bs = Except.ok (byRow, iloop, jloop)) :
    getPointsOrientation p bs = Except.ok (byRow, false) := by
  unfold getSteps at h
  split at h
  · cases h
  · rename_i b t hor
    cases t
    · cases b
      · simp only [Bool.false_eq_true, if_false] at h
        split at h
        · cases h; exact hor
        · cases h
      · simp only [Bool.false_eq_true, if_false, if_true] at h
        split at h
        · cases h; exact hor
        · cases h
    · simp at h

theorem getSteps_eq (p : List Point2f) (rows cols : Nat) (byRow : Bool)
    (hr : 2 ≤ rows) (hc : 2 ≤ cols) (hlen : p.length = rows * cols)
    (hor : getPointsOrientation p ⟨cols, rows⟩ = Except.ok (byRow, false)) :
    getSteps p ⟨cols, rows⟩ = Except.ok (byRow,
      if byRow then
        (dirLoop (decide ((p.getD 0 default).y < (p.getD cols default).y)) rows,
          dirLoop (decide ((p.getD 0 default).x < (p.getD 1 default).x)) cols)
      else
        (dirLoop (decide ((p.getD 0 default).x < (p.getD rows default).x)) cols,
          dirLoop (decide ((p.getD 0 default).y < (p.getD 1 default).y)) rows)) := by
  have hlen2 : 2 * cols ≤ p.length := by
    rw [hlen]; exact Nat.mul_le_mul_right cols hr
  have hlen3 : 2 * rows ≤ p.length := by
    rw [hlen, Nat.mul_comm rows cols]; exact Nat.mul_le_mul_right rows hc
  unfold getSteps
  rw [hor]
  cases byRow
  · simp only [Bool.false_eq_true, if_false]
    rw [getPoint_ok p rows 0 0 0 (by simp) (by omega),
      getPoint_ok p rows 1 0 rows (by simp) (by omega),
      getPoint_ok p rows 0 1 1 (by simp) (by omega)]
    simp only [getStepsABC_eq, Bool.false_eq_true, if_false]
  · simp only [Bool.false_eq_true, if_false, if_true]
    rw [getPoint_ok p cols 0 0 0 (by simp) (by omega),
      getPoint_ok p cols 0 1 1 (by simp) (by omega),
      getPoint_ok p cols 1 0 cols (by simp) (by omega)]
    simp only [getStepsABC_eq, if_true]

/-- A loop that runs `n` passes, with a body that only counts, counts `n`. -/
theorem count_passes (lc : loop_control) (n : Nat) (hlc : lc.Runs n) (fuel : Nat)
    (hf : n ≤ fuel) :
    forLoop lc (fun _ _ (m : Nat) => Except.ok (m + 1)) fuel 0 lc.start 0 = Except.ok n := by
  obtain ⟨s, h1, h2⟩ := forLoop_run lc (fun _ _ (m : Nat) => Except.ok (m + 1)) n
    (fun k m => m = k) hlc (fun k m _ hm => ⟨m + 1, rfl, by rw [hm]⟩) fuel hf 0 rfl
  rw [h1, h2]

theorem order_outcome (rows cols : Nat) (hr : 2 ≤ rows) (hc : 2 ≤ cols)
    (p : List Point2f) (hlen : p.length = rows * cols) (fuel : Nat) (hf1 : rows ≤ fuel)
    (hf2 : cols ≤ fuel) :
    (∃ g, orderChessboardCorners fuel p ⟨cols, rows⟩ = Except.ok g) ∨
    orderChessboardCorners fuel p ⟨cols, rows⟩ = Except.error Err.unexpectedOrder ∨
    orderChessboardCorners fuel p ⟨cols, rows⟩ = Except.error Err.notSupported := by
  have hcl : ((cols : Nat) : Int) < (p.length : Int) := by
    have := cols_lt hr hc; omega
  have hrl : ((rows : Nat) : Int) < (p.length : Int) := by
    have := rows_lt hr hc; omega
  cases hor : getPointsOrientation p ⟨cols, rows⟩ with
  | error e =>
    have he := orientation_error p ⟨cols, rows⟩ (by simp) (by simp) hcl hrl e hor
    subst he
    right; left
    unfold orderChessboardCorners
    rw [if_neg (by simp)]
    unfold getSteps
    rw [hor]
  | ok o =>
    obtain ⟨byRow, t⟩ := o
    cases t
    · left
      exact ⟨_, order_spec p rows cols byRow hr hc hlen hor fuel hf1 hf2⟩
    · right; right
      exact order_transposed p ⟨cols, rows⟩ byRow fuel (by simp) (by simp) hor

theorem read_in_range (p : List Point2f) (R K : Nat) (hlen : p.length = R * K)
    (f1 f2 : Bool) (i j : Nat) (hi : i < R) (hj : j < K) :
    0 ≤ ((dirLoop f1 R).start + i * (dirLoop f1 R).step) * K
        + ((dirLoop f2 K).start + j * (dirLoop f2 K).step) ∧
    ((dirLoop f1 R).start + i * (dirLoop f1 R).step) * K
        + ((dirLoop f2 K).start + j * (dirLoop f2 K).step) < ((R * K : Nat) : Int) ∧
    ∃ P, getPoint p K ((dirLoop f1 R).start + i * (dirLoop f1 R).step)
        ((dirLoop f2 K).start + j * (dirLoop f2 K).step) = Except.ok P := by
  rw [(dirLoop_runs f1 R).2 i hi, (dirLoop_runs f2 K).2 j hj]
  have hlt := flat_lt _ _ _ _ (mirror_lt f1 R i hi) (mirror_lt f2 K j hj)
  refine ⟨by positivity, by exact_mod_cast hlt, _,
    getPoint_ok p K _ _ (mirror f1 R i * K + mirror f2 K j) (by push_cast; rfl) ?_⟩
  rw [hlen]; exact hlt

/-- C14: for rows, cols >= 2 and any list of exactly `rows * cols` points:
the assertion `N < p.size()` holds at every call the detector can make, so the
detector fails only at `assert(false)`; the two loop descriptions built by
`getSteps` make exactly `rows` and `cols` passes (in the order given by the scan
axis); at every pair of passes the flat index `ii * stride + jj` read by
`getPoint` lies in `[0, rows * cols)` and the cell written lies in the
`rows x cols` grid; the three reads of `getSteps` itself are in range; and with
a budget of `max(rows, cols)` passes `orderChessboardCorners` ends with a grid
or at one of the two orientation assertions, never at an out-of-range read or
write and never short of budget. -/
theorem C14_index_safety_and_termination (rows cols : Nat) (hr : 2 ≤ rows) (hc : 2 ≤ cols)
    (p : List Point2f) (hlen : p.length = rows * cols) (fuel : Nat) (hf1 : rows ≤ fuel)
    (hf2 : cols ≤ fuel) :
    (∀ c, (∃ b, areThereNMonotonousPoints p cols c = Except.ok b) ∧
      (∃ b, areThereNMonotonousPoints p rows c = Except.ok b)) ∧
    (∀ e, getPointsOrientation p ⟨cols, rows⟩ = Except.error e → e = Err.unexpectedOrder) ∧
    (∀ iloop jloop, getSteps p ⟨cols, rows⟩ = Except.ok (true, iloop, jloop) →
      forLoop iloop (fun _ _ (m : Nat) => Except.ok (m + 1)) fuel 0 iloop.start 0
        = Except.ok rows ∧
      forLoop jloop (fun _ _ (m : Nat) => Except.ok (m + 1)) fuel 0 jloop.start 0
        = Except.ok cols ∧
      ∀ i j : Nat, i < rows → j < cols →
        (0 ≤ (iloop.start + i * iloop.step) * cols + (jloop.start + j * jloop.step) ∧
        (iloop.start + i * iloop.step) * cols + (jloop.start + j * jloop.step)
          < ((rows * cols : Nat) : Int) ∧
        ∃ P, getPoint p cols (iloop.start + i * iloop.step) (jloop.start + j * jloop.step)
          = Except.ok P) ∧
        ∀ res P, Shaped res rows cols →
          ∃ res', setCell res i j P = Except.ok res' ∧ Shaped res' rows cols) ∧
    (∀ iloop jloop, getSteps p ⟨cols, rows⟩ = Except.ok (false, iloop, jloop) →
      forLoop iloop (fun _ _ (m : Nat) => Except.ok (m + 1)) fuel 0 iloop.start 0
        = Except.ok cols ∧
      forLoop jloop (fun _ _ (m : Nat) => Except.ok (m + 1)) fuel 0 jloop.start 0
        = Except.ok rows ∧
      ∀ i j : Nat, i < cols → j < rows →
        (0 ≤ (iloop.start + i * iloop.step) * rows + (jloop.start + j * jloop.step) ∧
        (iloop.start + i * iloop.step) * rows + (jloop.start + j * jloop.step)
          < ((rows * cols : Nat) : Int) ∧
        ∃ P, getPoint p rows (iloop.start + i * iloop.step) (jloop.start + j * jloop.step)
          = Except.ok P) ∧
        ∀ res P, Shaped res rows cols →
          ∃ res', setCell res j i P = Except.ok res' ∧ Shaped res' rows cols) ∧
    ((∃ P, getPoint p cols 0 0 = Except.ok P) ∧ (∃ P, getPoint p cols 0 1 = Except.ok P) ∧
      (∃ P, getPoint p cols 1 0 = Except.ok P) ∧ (∃ P, getPoint p rows 0 0 = Except.ok P) ∧
      (∃ P, getPoint p rows 1 0 = Except.ok P) ∧ (∃ P, getPoint p rows 0 1 = Except.ok P)) ∧
    ((∃ g, orderChessboardCorners fuel p ⟨cols, rows⟩ = Except.ok g ∧ Shaped g rows cols) ∨
      orderChessboardCorners fuel p ⟨cols, rows⟩ = Except.error Err.unexpectedOrder ∨
      orderChessboardCorners fuel p ⟨cols, rows⟩ = Except.error Err.notSupported) := by
  have hcl : ((cols : Nat) : Int) < (p.length : Int) := by
    have := cols_lt hr hc; omega
  have hrl : ((rows : Nat) : Int) < (p.length : Int) := by
    have := rows_lt hr hc; omega
  have hlen2 : 2 * cols ≤ p.length := by
    rw [hlen]; exact Nat.mul_le_mul_right cols hr
  have hlen3 : 2 * rows ≤ p.length := by
    rw [hlen, Nat.mul_comm rows cols]; exact Nat.mul_le_mul_right rows hc
  refine ⟨?_, ?_, ?_, ?_, ?_, ?_⟩
  · intro c
    exact ⟨monotonous_total p cols c (by omega) hcl, monotonous_total p rows c (by omega) hrl⟩
  · intro e he
    exact orientation_error p ⟨cols, rows⟩ (by simp) (by simp) hcl hrl e he
  · intro iloop jloop hs
    have hor := getSteps_orientation p _ _ _ _ hs
    rw [getSteps_eq p rows cols true hr hc hlen hor] at hs
    simp only [if_true, Except.ok.injEq, Prod.mk.injEq, true_and] at hs
    obtain ⟨rfl, rfl⟩ := hs
    refine ⟨count_passes _ rows (dirLoop_runs _ rows).1 fuel hf1,
      count_passes _ cols (dirLoop_runs _ cols).1 fuel hf2, ?_⟩
    intro i j hi hj
    refine ⟨read_in_range p rows cols hlen _ _ i j hi hj, ?_⟩
    intro res P hres
    obtain ⟨res', h1, h2, -⟩ := setCell_spec res rows cols i j P hres hi hj
    exact ⟨res', h1, h2⟩
  · intro iloop jloop hs
    have hor := getSteps_orientation p _ _ _ _ hs
    rw [getSteps_eq p rows cols false hr hc hlen hor] at hs
    simp only [Bool.false_eq_true, if_false, Except.ok.injEq, Prod.mk.injEq, true_and] at hs
    obtain ⟨rfl, rfl⟩ := hs
    refine ⟨count_passes _ cols (dirLoop_runs _ cols).1 fuel hf2,
      count_passes _ rows (dirLoop_runs _ rows).1 fuel hf1, ?_⟩
    intro i j hi hj
    constructor
    · have h := read_in_range p cols rows (by rw [hlen, Nat.mul_comm])
        (decide ((p.getD 0 default).x < (p.getD rows default).x))
        (decide ((p.getD 0 default).y < (p.getD 1 default).y)) i j hi hj
      rw [Nat.mul_comm cols rows] at h
      exact h
    · intro res P hres
      obtain ⟨res', h1, h2, -⟩ := setCell_spec res rows cols j i P hres hj hi
      exact ⟨res', h1, h2⟩
  · exact ⟨⟨_, getPoint_ok p cols 0 0 0 (by simp) (by omega)⟩,
      ⟨_, getPoint_ok p cols 0 1 1 (by simp) (by omega)⟩,
      ⟨_, getPoint_ok p cols 1 0 cols (by simp) (by omega)⟩,
      ⟨_, getPoint_ok p rows 0 0 0 (by simp) (by omega)⟩,
      ⟨_, getPoint_ok p rows 1 0 rows (by simp) (by omega)⟩,
      ⟨_, getPoint_ok p rows 0 1 1 (by simp) (by omega)⟩⟩
  · rcases order_outcome rows cols hr hc p hlen fuel hf1 hf2 with ⟨g, hg⟩ | h | h
    · left
      refine ⟨g, hg, ?_⟩
      cases hor : getPointsOrientation p ⟨cols, rows⟩ with
      | error e =>
        exfalso
        unfold orderChessboardCorners at hg
        rw [if_neg (by simp)] at hg
        unfold getSteps at hg
        rw [hor] at hg
        cases hg
      | ok o =>
        obtain ⟨byRow, t⟩ := o
        cases t
        · rw [order_spec p rows cols byRow hr hc hlen hor fuel hf1 hf2] at hg
          cases hg
          exact shaped_gridOfFn _ _ _
        · rw [order_transposed p ⟨cols, rows⟩ byRow fuel (by simp) (by simp) hor] at hg
          cases hg
    · exact Or.inr (Or.inl h)
    · exact Or.inr (Or.inr h)

/-- C14 on the row-major reversed sample (2 rows, 3 columns): both loops run
backwards, two and three passes. -/
theorem C14_index_safety_and_termination_witness :
    getSteps sampleRowRev ⟨3, 2⟩ = Except.ok (true, ⟨1, -1, -1⟩, ⟨2, -1, -1⟩) ∧
    forLoop ⟨1, -1, -1⟩ (fun _ _ (m : Nat) => Except.ok (m + 1)) 3 0 1 0 = Except.ok 2 ∧
    forLoop ⟨2, -1, -1⟩ (fun _ _ (m : Nat) => Except.ok (m + 1)) 3 0 2 0 = Except.ok 3 :=
  have h := (C14_index_safety_and_termination 2 3 (by decide) (by decide) sampleRowRev
    (by decide) 3 (by decide) (by decide)).2.2.1 ⟨1, -1, -1⟩ ⟨2, -1, -1⟩ (by decide)
  ⟨by decide, h.1, h.2.1⟩

end Calibrate

